import Mathlib

/-!
# Portfolio page script: particle field and component initialisation

A shallow embedding of `src/script.js`.

* JavaScript numbers are modelled as exact rationals (`ℚ`); rounding, `NaN` and
  infinities are outside the model.
* `Math.random` is a stream `rnd : ℕ → ℚ` of samples, consumed in call order.
* `Math.sqrt` is a function `sqrt : ℚ → ℚ` supplied by the host.
* The 2D context is modelled by the trace of calls made on it.
-/

namespace Portfolio

/-! ## Data model -/

/-- One entry of `this.particles` (object literal of `createParticles`, lines 98-105). -/
structure Particle where
  x : ℚ
  y : ℚ
  radius : ℚ
  vx : ℚ
  vy : ℚ
  opacity : ℚ
deriving DecidableEq

/-- The canvas element: backing bitmap size (`width`, `height`) and layout size
(`offsetWidth`, `offsetHeight`). -/
structure Canvas where
  width : ℚ
  height : ℚ
  offsetWidth : ℚ
  offsetHeight : ℚ
deriving DecidableEq

/-- The fields of a `ParticleCanvas` object whose constructor ran past the guard of line 74. -/
structure Field where
  canvas : Canvas
  particles : List Particle
  particleCount : ℕ
deriving DecidableEq

/-- A colour string of the form rgba(r, g, b, a). -/
structure Rgba where
  r : ℕ
  g : ℕ
  b : ℕ
  a : ℚ
deriving DecidableEq

/-- Calls made on the 2D context. `arc x y r` stands for `arc(x, y, r, 0, Math.PI * 2)`. -/
inductive DrawCmd where
  | clearRect (x y w h : ℚ)
  | beginPath
  | arc (x y r : ℚ)
  | fillStyle (c : Rgba)
  | fill
  | strokeStyle (c : Rgba)
  | lineWidth (w : ℚ)
  | moveTo (x y : ℚ)
  | lineTo (x y : ℚ)
  | stroke
deriving DecidableEq

/-- The connecting line stroked at lines 136-141. -/
structure Line where
  alpha : ℚ
  x1 : ℚ
  y1 : ℚ
  x2 : ℚ
  y2 : ℚ
deriving DecidableEq

/-- One iteration of the inner loop of `animate` (lines 130-143): the index pair, the
computed `distance`, and the line that was stroked, if any. -/
structure PairCheck where
  i : ℕ
  j : ℕ
  distance : ℚ
  line : Option Line
deriving DecidableEq

/-- One invocation of the `forEach` callback of `animate` (lines 112-144): the index, the
particle as drawn (after advance and wrap) and the inner loop iterations. -/
structure ParticleDraw where
  index : ℕ
  drawn : Particle
  checks : List PairCheck
deriving DecidableEq

/-- Everything one call of `animate` does besides updating the particles. -/
structure Frame where
  clear : DrawCmd
  draws : List ParticleDraw
  frameRequests : ℕ
deriving DecidableEq

/-- Effects observable outside the object. -/
inductive Effect where
  | draw (c : DrawCmd)
  | requestAnimationFrame
  | addResizeListener
deriving DecidableEq

/-! ## ParticleCanvas -/

/-- The accent colour with the given alpha: rgba(100, 255, 218, a). -/
def accent (a : ℚ) : Rgba := ⟨100, 255, 218, a⟩

/-- Body of `resize` (lines 91-94). -/
def ParticleCanvas.resize (f : Field) : Field :=
  { f with canvas := { f.canvas with width := f.canvas.offsetWidth,
                                     height := f.canvas.offsetHeight } }

/-- The object literal pushed at lines 98-105; `k` is the index of the first of the six
`Math.random()` calls it makes. -/
def newParticle (rnd : ℕ → ℚ) (k : ℕ) (c : Canvas) : Particle :=
  { x := rnd k * c.width
    y := rnd (k + 1) * c.height
    radius := rnd (k + 2) * 2 + 1
    vx := (rnd (k + 3) - 1 / 2) * (1 / 2)
    vy := (rnd (k + 4) - 1 / 2) * (1 / 2)
    opacity := rnd (k + 5) * (1 / 2) + 1 / 5 }

/-- Body of `createParticles` (lines 96-107): `particleCount` pushes. -/
def ParticleCanvas.createParticles (rnd : ℕ → ℚ) (f : Field) : Field :=
  (List.range f.particleCount).foldl
    (fun g i => { g with particles := g.particles ++ [newParticle rnd (6 * i) g.canvas] }) f

/-- Lines 114-121: advance by the velocity, then the four edge tests in source order. -/
def advance (c : Canvas) (p : Particle) : Particle :=
  let x := p.x + p.vx
  let y := p.y + p.vy
  let x := if x < 0 then c.width else x
  let x := if x > c.width then 0 else x
  let y := if y < 0 then c.height else y
  let y := if y > c.height then 0 else y
  { p with x := x, y := y }

/-- Lines 131-142: one iteration of the inner loop for `particle = p` (index `i`) and
`this.particles[j] = q`. -/
def checkPair (sqrt : ℚ → ℚ) (i j : ℕ) (p q : Particle) : PairCheck :=
  let dx := q.x - p.x
  let dy := q.y - p.y
  let distance := sqrt (dx * dx + dy * dy)
  { i := i
    j := j
    distance := distance
    line := if distance < 120 then
        some { alpha := 1 / 5 * (1 - distance / 120), x1 := p.x, y1 := p.y, x2 := q.x, y2 := q.y }
      else none }

/-- Lines 130-143: `for (let j = i + 1; j < this.particles.length; j++)`. -/
def connect (sqrt : ℚ → ℚ) (ps : List Particle) (i : ℕ) (p : Particle) : List PairCheck :=
  (List.range' (i + 1) (ps.length - (i + 1))).filterMap
    (fun j => (ps[j]?).map (checkPair sqrt i j p))

/-- The `forEach` callback (lines 112-144) at index `i`: the particle object is updated in
place, so the inner loop reads the array with entry `i` already advanced. -/
def animateBody (sqrt : ℚ → ℚ) (c : Canvas) (st : List Particle × List ParticleDraw) (i : ℕ) :
    List Particle × List ParticleDraw :=
  match st.1[i]? with
  | none => st
  | some p =>
    let p1 := advance c p
    let ps := st.1.set i p1
    (ps, st.2 ++ [{ index := i, drawn := p1, checks := connect sqrt ps i p1 }])

/-- Body of `animate` (lines 109-147): clear, run the callback for every index, request the
next frame. -/
def ParticleCanvas.animate (sqrt : ℚ → ℚ) (f : Field) : Field × Frame :=
  let st := (List.range f.particles.length).foldl (animateBody sqrt f.canvas) (f.particles, [])
  ({ f with particles := st.1 },
   { clear := .clearRect 0 0 f.canvas.width f.canvas.height, draws := st.2, frameRequests := 1 })

/-- The state after `k` successive frames. -/
def frames (sqrt : ℚ → ℚ) : ℕ → Field → Field
  | 0, f => f
  | k + 1, f => (ParticleCanvas.animate sqrt (frames sqrt k f)).1

/-- All inner-loop iterations of a frame, in execution order. -/
def Frame.checks (fr : Frame) : List PairCheck :=
  fr.draws.flatMap (fun d => d.checks)

/-- The lines stroked in a frame, in execution order. -/
def Frame.lines (fr : Frame) : List Line :=
  fr.checks.filterMap (fun c => c.line)

/-- Context calls of lines 136-141 for a stroked line. -/
def Line.cmds (l : Line) : List DrawCmd :=
  [.beginPath, .strokeStyle (accent l.alpha), .lineWidth 1, .moveTo l.x1 l.y1,
   .lineTo l.x2 l.y2, .stroke]

/-- Context calls of one inner-loop iteration. -/
def PairCheck.cmds (c : PairCheck) : List DrawCmd :=
  match c.line with
  | some l => l.cmds
  | none => []

/-- Context calls of one callback invocation: lines 124-127, then the inner loop. -/
def ParticleDraw.cmds (d : ParticleDraw) : List DrawCmd :=
  [.beginPath, .arc d.drawn.x d.drawn.y d.drawn.radius, .fillStyle (accent d.drawn.opacity),
   .fill] ++ d.checks.flatMap PairCheck.cmds

/-- Context calls of a whole frame. -/
def Frame.cmds (fr : Frame) : List DrawCmd :=
  fr.clear :: fr.draws.flatMap ParticleDraw.cmds

/-- Effects of a frame: the context calls, then the frame request of line 146. -/
def Frame.effects (fr : Frame) : List Effect :=
  fr.cmds.map Effect.draw ++ List.replicate fr.frameRequests Effect.requestAnimationFrame

/-- Body of `init` (lines 83-89). -/
def ParticleCanvas.init (sqrt : ℚ → ℚ) (rnd : ℕ → ℚ) (f : Field) : Field × List Effect :=
  let f1 := ParticleCanvas.resize f
  let f2 := ParticleCanvas.createParticles rnd f1
  let r := ParticleCanvas.animate sqrt f2
  (r.1, r.2.effects ++ [Effect.addResizeListener])

/-- The constructor (lines 72-81). The argument is the result of
`document.getElementById('particleCanvas')`; the result is `none` when the guard of line 74
returned before any field besides `canvas` was set. -/
def ParticleCanvas.constructor (sqrt : ℚ → ℚ) (rnd : ℕ → ℚ) (canvas : Option Canvas) :
    Except String (Option Field × List Effect) :=
  match canvas with
  | none => .ok (none, [])
  | some c =>
    let r := ParticleCanvas.init sqrt rnd { canvas := c, particles := [], particleCount := 80 }
    .ok (some r.1, r.2)

/-- What can happen to a constructed field: a display frame, the resize listener, or the
host changing the layout size of the canvas. -/
inductive Op where
  | animate
  | resize
  | layout (offsetWidth offsetHeight : ℚ)
deriving DecidableEq

/-- Apply one operation. -/
def Op.apply (sqrt : ℚ → ℚ) (f : Field) : Op → Field
  | .animate => (ParticleCanvas.animate sqrt f).1
  | .resize => ParticleCanvas.resize f
  | .layout w h => { f with canvas := { f.canvas with offsetWidth := w, offsetHeight := h } }

/-- Apply a sequence of operations, first to last. -/
def runOps (sqrt : ℚ → ℚ) (f : Field) (ops : List Op) : Field :=
  ops.foldl (Op.apply sqrt) f

/-! ## Sample inputs and closed forms used by the proofs -/

/-- A host square root that is exact on squares of integers. -/
def sqrtQ (q : ℚ) : ℚ := (Nat.sqrt (q.num.toNat * q.den) : ℚ) / q.den

/-- Closed form of one callback invocation in terms of the array at the start of the frame. -/
def drawAt (sqrt : ℚ → ℚ) (c : Canvas) (ps : List Particle) (i : ℕ) : Option ParticleDraw :=
  (ps[i]?).map (fun p => { index := i, drawn := advance c p, checks := connect sqrt ps i (advance c p) })

/-- Sample particle for C1: its advanced `x` is `-0.1`. -/
def leftEdgeParticle : Particle := ⟨0, 10, 2, -1 / 10, 0, 1 / 2⟩

/-- Sample field for C1: `leftEdgeParticle` on an 800 x 600 surface. -/
def leftEdgeField : Field :=
  { canvas := ⟨800, 600, 800, 600⟩
    particles := [leftEdgeParticle]
    particleCount := 1 }

/-- The field of the C2 scenario: an 800 x 600 surface holding one particle at (400, 300)
with velocity (0.5, 0). -/
def scenarioField (radius opacity : ℚ) : Field :=
  { canvas := ⟨800, 600, 800, 600⟩
    particles := [⟨400, 300, radius, 1 / 2, 0, opacity⟩]
    particleCount := 1 }

/-- Sample field for C3: two resting particles 60 pixels apart. -/
def pairField : Field :=
  { canvas := ⟨800, 600, 800, 600⟩
    particles := [⟨100, 100, 2, 0, 0, 1 / 2⟩, ⟨160, 100, 2, 0, 0, 1 / 2⟩]
    particleCount := 2 }

/-- The index pairs of one frame over `n` particles, in execution order. -/
def indexPairs (n : ℕ) : List (ℕ × ℕ) :=
  (List.range n).flatMap (fun i => (List.range' (i + 1) (n - (i + 1))).map (Prod.mk i))

/-! ## Component construction (`initializeApp`) -/

/-- Which of the elements looked up by the constructors exist in the page: the result of
each `document.getElementById` being non-null (for the canvas, the element itself). -/
structure Document where
  typingName : Bool
  particleCanvas : Option Canvas
  navbar : Bool
  navLinks : Bool
  mobileToggle : Bool
  scrollProgress : Bool
  backToTop : Bool
  contactForm : Bool
  submitBtn : Bool
  formMessage : Bool

/-- The classes instantiated by `init` (lines 882-895), in source order. -/
inductive Component where
  | TypingAnimation
  | ParticleCanvas
  | Navigation
  | ScrollProgress
  | StatsCounter
  | BackToTop
  | AnimationObserver
  | ContactForm
  | ProjectCards
  | KeyboardNavigation
  | PerformanceOptimizer
  | EasterEgg
  | Analytics
  | AccessibilityEnhancements
deriving DecidableEq

/-- The error raised by a method call on a `null` field. -/
def nullDeref (field : String) : String := "TypeError: this." ++ field ++ " is null"

/-- Lines 41-50: guarded by `if (!this.element) return`. -/
def TypingAnimation.constructor (doc : Document) : Except String Unit :=
  if !doc.typingName then .ok () else .ok ()

/-- Lines 171-181: `this.navbar` is only used inside the scroll handler. -/
def Navigation.setupScrollEffect (_doc : Document) : Except String Unit := .ok ()

/-- Lines 183-205: line 184 calls `this.mobileToggle.addEventListener` unguarded. -/
def Navigation.setupMobileMenu (doc : Document) : Except String Unit :=
  if doc.mobileToggle then .ok () else .error (nullDeref "mobileToggle")

/-- Lines 207-230: only `querySelectorAll` results and `window` are used. -/
def Navigation.setupActiveLink (_doc : Document) : Except String Unit := .ok ()

/-- Lines 232-259: the scroll indicator is guarded, the links list is never null. -/
def Navigation.setupSmoothScroll (_doc : Document) : Except String Unit := .ok ()

/-- Lines 155-169: the constructor looks the elements up and calls `init`. -/
def Navigation.constructor (doc : Document) : Except String Unit := do
  Navigation.setupScrollEffect doc
  Navigation.setupMobileMenu doc
  Navigation.setupActiveLink doc
  Navigation.setupSmoothScroll doc

/-- Lines 267-284: `this.progressBar` is only used inside the scroll handler. -/
def ScrollProgress.constructor (_doc : Document) : Except String Unit := .ok ()

/-- Lines 291-311: only a `querySelectorAll` result is used. -/
def StatsCounter.constructor (_doc : Document) : Except String Unit := .ok ()

/-- Lines 338-360: line 354 calls `this.button.addEventListener` unguarded. -/
def BackToTop.constructor (doc : Document) : Except String Unit :=
  if doc.backToTop then .ok () else .error (nullDeref "button")

/-- Lines 368-395: only a `querySelectorAll` result is used. -/
def AnimationObserver.constructor (_doc : Document) : Except String Unit := .ok ()

/-- Lines 403-428: `init` is guarded by `if (!this.form) return`. -/
def ContactForm.constructor (doc : Document) : Except String Unit :=
  if !doc.contactForm then .ok () else .ok ()

/-- Lines 568-593, 599-625, 631-674, 681-699, 741-781, 787-868: these constructors use only
`document`, `window` and `querySelectorAll` results at construction time. -/
def plainConstructor (_doc : Document) : Except String Unit := .ok ()

/-- The `new` expressions of lines 882-895, in order. -/
def initializeApp.components (sqrt : ℚ → ℚ) (rnd : ℕ → ℚ) :
    List (Component × (Document → Except String Unit)) :=
  [(.TypingAnimation, TypingAnimation.constructor),
   (.ParticleCanvas, fun doc =>
      (ParticleCanvas.constructor sqrt rnd doc.particleCanvas).map (fun _ => ())),
   (.Navigation, Navigation.constructor),
   (.ScrollProgress, ScrollProgress.constructor),
   (.StatsCounter, StatsCounter.constructor),
   (.BackToTop, BackToTop.constructor),
   (.AnimationObserver, AnimationObserver.constructor),
   (.ContactForm, ContactForm.constructor),
   (.ProjectCards, plainConstructor),
   (.KeyboardNavigation, plainConstructor),
   (.PerformanceOptimizer, plainConstructor),
   (.EasterEgg, plainConstructor),
   (.Analytics, plainConstructor),
   (.AccessibilityEnhancements, plainConstructor)]

/-- The `try` block of lines 880-900: statements run in order and the first exception
leaves the block; the result is the components constructed and the error logged by the
`catch`, if any. -/
def initializeApp.tryAll :
    List (Component × (Document → Except String Unit)) → Document →
      List Component × Option String
  | [], _ => ([], none)
  | (c, ctor) :: rest, doc =>
    match ctor doc with
    | .error e => ([], some e)
    | .ok _ => ((c :: (initializeApp.tryAll rest doc).1), (initializeApp.tryAll rest doc).2)

/-- Lines 879-901: `init`. -/
def initializeApp.init (sqrt : ℚ → ℚ) (rnd : ℕ → ℚ) (doc : Document) :
    List Component × Option String :=
  initializeApp.tryAll (initializeApp.components sqrt rnd) doc

/-- A page that has every element except the one with id `mobileToggle`. -/
def pageWithoutToggle : Document :=
  { typingName := true
    particleCanvas := some ⟨300, 150, 800, 600⟩
    navbar := true
    navLinks := true
    mobileToggle := false
    scrollProgress := true
    backToTop := true
    contactForm := true
    submitBtn := true
    formMessage := true }

/-- A stream of samples that are all one half. -/
def rndHalf : ℕ → ℚ := fun _ => 1 / 2

/-- The particles created by `createParticles` on a field with canvas `c`. -/
def seeded (rnd : ℕ → ℚ) (c : Canvas) (n : ℕ) : List Particle :=
  (List.range n).map (fun i => newParticle rnd (6 * i) c)

/-- A field on a canvas whose layout box is empty, as for a hidden element. -/
def emptyCanvasField : Field :=
  ParticleCanvas.resize { canvas := ⟨300, 150, 0, 0⟩, particles := [], particleCount := 80 }

/-- A field about to be seeded on an 800 x 600 surface. -/
def freshField : Field :=
  { canvas := ⟨800, 600, 800, 600⟩, particles := [], particleCount := 80 }

/-! ## Sample inputs and projections for the frame claims -/

/-- The fields of a particle that `animate` never assigns. -/
def Particle.fixed (p : Particle) : ℚ × ℚ × ℚ × ℚ := (p.vx, p.vy, p.radius, p.opacity)

/-- The field of the C12 scenario: two resting particles at (0, 0) and (50, 0) on an
800 x 600 surface. -/
def twoParticleField (r1 o1 r2 o2 : ℚ) : Field :=
  { canvas := ⟨800, 600, 800, 600⟩
    particles := [⟨0, 0, r1, 0, 0, o1⟩, ⟨50, 0, r2, 0, 0, o2⟩]
    particleCount := 2 }

/-- The circle of an `arc` call: centre and radius. -/
def circleOf : DrawCmd → Option (ℚ × ℚ × ℚ)
  | .arc x y r => some (x, y, r)
  | _ => none

/-- The colour of a `fillStyle` assignment. -/
def fillColour : DrawCmd → Option Rgba
  | .fillStyle c => some c
  | _ => none

/-- Whether the call is `fill()`. -/
def isFill : DrawCmd → Bool
  | .fill => true
  | _ => false

/-- Whether the call is a `clearRect`. -/
def isClear : DrawCmd → Bool
  | .clearRect _ _ _ _ => true
  | _ => false

/-- Sample field for C14: a resting particle and, 60 pixels to its right, one moving right
by one pixel per frame. -/
def chaseField : Field :=
  { canvas := ⟨800, 600, 800, 600⟩
    particles := [⟨100, 100, 2, 0, 0, 1 / 2⟩, ⟨160, 100, 2, 1, 0, 1 / 2⟩]
    particleCount := 2 }

/-! ## EasterEgg -/

/-- The fields of `EasterEgg` that the key listener touches, and the number of calls of
`activate` made so far. -/
structure EasterEgg where
  konamiIndex : ℕ
  activations : ℕ
deriving DecidableEq

/-- The array `this.konamiCode` (line 679). -/
def konamiCode : List String :=
  ["ArrowUp", "ArrowUp", "ArrowDown", "ArrowDown", "ArrowLeft", "ArrowRight", "ArrowLeft",
   "ArrowRight", "b", "a"]

/-- The object after the constructor (lines 678-682): index 0, nothing activated. -/
def EasterEgg.initial : EasterEgg := { konamiIndex := 0, activations := 0 }

/-- The `keydown` listener (lines 685-695) for a key with `e.key = key`. -/
def EasterEgg.keydown (s : EasterEgg) (key : String) : EasterEgg :=
  if konamiCode[s.konamiIndex]? = some key then
    let index := s.konamiIndex + 1
    if index = konamiCode.length then
      { konamiIndex := 0, activations := s.activations + 1 }
    else
      { s with konamiIndex := index }
  else
    { s with konamiIndex := 0 }

/-- A sequence of key presses, first to last. -/
def EasterEgg.press (s : EasterEgg) (keys : List String) : EasterEgg :=
  keys.foldl EasterEgg.keydown s

/-! ## ContactForm.validateField -/

/-- The characters matched by `\s` and stripped by `trim`: the WhiteSpace and LineTerminator
code points of the language. -/
def isJsSpace (c : Char) : Bool :=
  c.toNat = 0x9 || c.toNat = 0xA || c.toNat = 0xB || c.toNat = 0xC || c.toNat = 0xD ||
  c.toNat = 0x20 || c.toNat = 0xA0 || c.toNat = 0x1680 ||
  (0x2000 ≤ c.toNat && c.toNat ≤ 0x200A) ||
  c.toNat = 0x2028 || c.toNat = 0x2029 || c.toNat = 0x202F || c.toNat = 0x205F ||
  c.toNat = 0x3000 || c.toNat = 0xFEFF

/-- The method `trim` on a string given as its list of characters. -/
def trim (s : List Char) : List Char :=
  ((s.dropWhile isJsSpace).reverse.dropWhile isJsSpace).reverse

/-- The character classes the regular expression of line 441 tells apart. -/
inductive Sym where
  | atSign
  | dot
  | space
  | other
deriving DecidableEq

/-- The class of a character. -/
def classify (c : Char) : Sym :=
  if c = '@' then .atSign else if c = '.' then .dot else if isJsSpace c then .space else .other

/-- The class `[^\s@]`: a dot or any other character that is neither white space nor `@`. -/
def notSpaceAt : RegularExpression Sym := .char .dot + .char .other

/-- The quantifier `+`: one or more. -/
def oneOrMore (r : RegularExpression Sym) : RegularExpression Sym := r * .star r

/-- The regular expression of line 441, `^[^\s@]+@[^\s@]+\.[^\s@]+$`, over character
classes; the anchors make it a match of the whole string. -/
def emailRegex : RegularExpression Sym :=
  oneOrMore notSpaceAt * .char .atSign * oneOrMore notSpaceAt * .char .dot * oneOrMore notSpaceAt

/-- The call `emailRegex.test(value)`. -/
def emailRegexTest (value : List Char) : Bool :=
  emailRegex.rmatch (value.map classify)

/-- A form field: its `value` and `type`, whether its class list contains `invalid`, and
the text of the `.field-error` element of its parent, if there is one. -/
structure FormField where
  value : List Char
  type : String
  invalid : Bool
  fieldError : Option String
deriving DecidableEq

/-- Body of `validateField` (lines 430-457): the returned `isValid` and the field after the
class and error element updates. -/
def ContactForm.validateField (field : FormField) : Bool × FormField :=
  let value := trim field.value
  let type := field.type
  let r : Bool × String :=
    if value.isEmpty then (false, "This field is required")
    else if type = "email" then
      if !emailRegexTest value then (false, "Please enter a valid email address")
      else (true, "")
    else (true, "")
  if !r.1 then (r.1, { field with invalid := true, fieldError := some r.2 })
  else (r.1, { field with invalid := false, fieldError := none })

/-- Sample field for C16: an email input holding ` a@b.c ` with surrounding blanks. -/
def emailField : FormField :=
  { value := [' ', 'a', '@', 'b', '.', 'c', ' '], type := "email", invalid := true,
    fieldError := some "This field is required" }

/-! ## Theorems -/

theorem connect_congr (sqrt : ℚ → ℚ) (ps qs : List Particle) (i : ℕ) (p : Particle)
    (hlen : ps.length = qs.length) (h : ∀ j, i < j → ps[j]? = qs[j]?) :
    connect sqrt ps i p = connect sqrt qs i p := by
  unfold connect
  rw [hlen]
  apply List.filterMap_congr
  intro j hj
  rw [List.mem_range'_1] at hj
  rw [h j (by omega)]

theorem animate_fold (sqrt : ℚ → ℚ) (c : Canvas) (ps : List Particle) (k : ℕ)
    (hk : k ≤ ps.length) :
    ((List.range k).foldl (animateBody sqrt c) (ps, [])).1.length = ps.length ∧
    (∀ j, ((List.range k).foldl (animateBody sqrt c) (ps, [])).1[j]? =
      if j < k then (ps[j]?).map (advance c) else ps[j]?) ∧
    ((List.range k).foldl (animateBody sqrt c) (ps, [])).2 =
      (List.range k).filterMap (drawAt sqrt c ps) := by
  induction k with
  | zero => simp
  | succ k ih =>
    obtain ⟨h1, h2, h3⟩ := ih (by omega)
    have hk2 : k < ps.length := by omega
    rw [List.range_succ, List.foldl_append, List.filterMap_append]
    simp only [List.foldl_cons, List.foldl_nil, List.filterMap_cons, List.filterMap_nil]
    generalize (List.range k).foldl (animateBody sqrt c) (ps, []) = st at h1 h2 h3
    have hst : st.1[k]? = ps[k]? := by rw [h2 k]; simp
    have hps : ps[k]? = some ps[k] := List.getElem?_eq_getElem hk2
    unfold animateBody
    rw [hst, hps]
    simp only [drawAt, hps, Option.map_some']
    refine ⟨by simp [h1], ?_, ?_⟩
    · intro j
      rw [List.getElem?_set]
      by_cases hjk : k = j
      · subst hjk
        simp [h1, hk2]
      · rw [if_neg hjk, h2 j]
        by_cases hj : j < k
        · simp [hj, Nat.lt_succ_of_lt hj]
        · have : ¬ j < k + 1 := by omega
          simp [hj, this]
    · rw [h3]
      congr 2
      congr 1
      apply connect_congr
      · simp [h1]
      · intro j hj
        rw [List.getElem?_set, if_neg (by omega), h2 j, if_neg (by omega)]

theorem animate_particles (sqrt : ℚ → ℚ) (f : Field) :
    (ParticleCanvas.animate sqrt f).1.particles = f.particles.map (advance f.canvas) := by
  obtain ⟨h1, h2, _⟩ := animate_fold sqrt f.canvas f.particles f.particles.length le_rfl
  apply List.ext_getElem?
  intro j
  show ((List.range f.particles.length).foldl (animateBody sqrt f.canvas) (f.particles, [])).1[j]? = _
  rw [h2 j, List.getElem?_map]
  by_cases hj : j < f.particles.length
  · simp [hj]
  · simp [hj, List.getElem?_eq_none (Nat.le_of_not_lt hj)]

theorem animate_canvas (sqrt : ℚ → ℚ) (f : Field) :
    (ParticleCanvas.animate sqrt f).1.canvas = f.canvas := rfl

theorem animate_particleCount (sqrt : ℚ → ℚ) (f : Field) :
    (ParticleCanvas.animate sqrt f).1.particleCount = f.particleCount := rfl

theorem animate_draws (sqrt : ℚ → ℚ) (f : Field) :
    (ParticleCanvas.animate sqrt f).2.draws =
      (List.range f.particles.length).filterMap (drawAt sqrt f.canvas f.particles) :=
  (animate_fold sqrt f.canvas f.particles f.particles.length le_rfl).2.2

theorem frames_canvas (sqrt : ℚ → ℚ) (k : ℕ) (f : Field) :
    (frames sqrt k f).canvas = f.canvas := by
  induction k with
  | zero => rfl
  | succ k ih => rw [frames, animate_canvas, ih]

theorem frames_succ_particles (sqrt : ℚ → ℚ) (k : ℕ) (f : Field) :
    (frames sqrt (k + 1) f).particles = (frames sqrt k f).particles.map (advance f.canvas) := by
  rw [frames, animate_particles, frames_canvas]

theorem advance_x (c : Canvas) (p : Particle) :
    (advance c p).x =
      if p.x + p.vx < 0 then (if c.width > c.width then 0 else c.width)
      else if p.x + p.vx > c.width then 0 else p.x + p.vx := by
  unfold advance
  by_cases h : p.x + p.vx < 0
  · simp [h]
  · simp [h]

theorem advance_y (c : Canvas) (p : Particle) :
    (advance c p).y =
      if p.y + p.vy < 0 then (if c.height > c.height then 0 else c.height)
      else if p.y + p.vy > c.height then 0 else p.y + p.vy := by
  unfold advance
  by_cases h : p.y + p.vy < 0
  · simp [h]
  · simp [h]

/-- C1: one per-frame update in `animate` leaves particle `i` at `x = W` if `x + vx < 0`,
at `x = 0` if `x + vx > W`, and at `x + vx` otherwise, and likewise for `y` with `H`, on
every surface with `W ≥ 0` and `H ≥ 0`; in particular an advanced `x` of `-0.1` ends the
step at exactly `W`. -/
theorem C1_animate_wraps_at_edges (sqrt : ℚ → ℚ) (f : Field) (i : ℕ) (p : Particle)
    (hW : 0 ≤ f.canvas.width) (hH : 0 ≤ f.canvas.height) (hp : f.particles[i]? = some p) :
    ∃ q, (ParticleCanvas.animate sqrt f).1.particles[i]? = some q ∧
      (p.x + p.vx < 0 → q.x = f.canvas.width) ∧
      (p.x + p.vx > f.canvas.width → q.x = 0) ∧
      (¬ p.x + p.vx < 0 → ¬ p.x + p.vx > f.canvas.width → q.x = p.x + p.vx) ∧
      (p.y + p.vy < 0 → q.y = f.canvas.height) ∧
      (p.y + p.vy > f.canvas.height → q.y = 0) ∧
      (¬ p.y + p.vy < 0 → ¬ p.y + p.vy > f.canvas.height → q.y = p.y + p.vy) ∧
      (p.x + p.vx = -1 / 10 → q.x = f.canvas.width) := by
  refine ⟨advance f.canvas p, ?_, ?_, ?_, ?_, ?_, ?_, ?_, ?_⟩
  · rw [animate_particles, List.getElem?_map, hp]
    rfl
  · intro h
    simp [advance_x, h]
  · intro h
    have h2 : ¬ p.x + p.vx < 0 := not_lt.mpr (le_trans hW (le_of_lt h))
    simp [advance_x, h, h2]
  · intro h1 h2
    simp [advance_x, h1, h2]
  · intro h
    simp [advance_y, h]
  · intro h
    have h2 : ¬ p.y + p.vy < 0 := not_lt.mpr (le_trans hH (le_of_lt h))
    simp [advance_y, h, h2]
  · intro h1 h2
    simp [advance_y, h1, h2]
  · intro h
    have h2 : p.x + p.vx < 0 := by rw [h]; norm_num
    simp [advance_x, h2]

theorem C1_animate_wraps_at_edges_witness :
    ∃ q, (ParticleCanvas.animate sqrtQ leftEdgeField).1.particles[0]? = some q ∧
      q.x = 800 ∧ q.y = 10 := by
  obtain ⟨q, h, hx, -, -, -, -, hy, -⟩ :=
    C1_animate_wraps_at_edges sqrtQ leftEdgeField 0 leftEdgeParticle
      (by norm_num [leftEdgeField]) (by norm_num [leftEdgeField]) rfl
  refine ⟨q, h, ?_, ?_⟩
  · simpa [leftEdgeField] using hx (by norm_num [leftEdgeParticle])
  · simpa [leftEdgeParticle] using
      hy (by norm_num [leftEdgeParticle]) (by norm_num [leftEdgeParticle, leftEdgeField])

theorem scenario_frames (sqrt : ℚ → ℚ) (radius opacity : ℚ) (k : ℕ) (hk : k ≤ 800) :
    (frames sqrt k (scenarioField radius opacity)).particles =
      [⟨400 + (1 / 2) * k, 300, radius, 1 / 2, 0, opacity⟩] := by
  induction k with
  | zero => simp [frames, scenarioField]
  | succ k ih =>
    rw [frames_succ_particles, ih (by omega)]
    have h1 : (k : ℚ) ≤ 799 := by exact_mod_cast (by omega : k ≤ 799)
    have h0 : (0 : ℚ) ≤ k := Nat.cast_nonneg k
    have ha : ¬ (400 + 1 / 2 * (k : ℚ) + 1 / 2 < 0) := by linarith
    have hb : ¬ (400 + 1 / 2 * (k : ℚ) + 1 / 2 > 800) := by linarith
    simp only [List.map_cons, List.map_nil, advance, scenarioField, ha, hb, if_false]
    norm_num
    ring

/-- C2: on an 800 x 600 surface with one particle at (400, 300) and velocity (0.5, 0), the
position after 1 update is (400.5, 300), after `k ≤ 800` updates it is (400 + 0.5 k, 300),
no update up to the 800th advances `x` beyond 800, and the 801st update, the first whose
advanced `x` exceeds 800, sets `x` to exactly 0 with `y` still 300. -/
theorem C2_scenario_drift_then_snap (sqrt : ℚ → ℚ) (radius opacity : ℚ) :
    (frames sqrt 1 (scenarioField radius opacity)).particles =
        [⟨801 / 2, 300, radius, 1 / 2, 0, opacity⟩] ∧
    (∀ k : ℕ, k ≤ 800 → (frames sqrt k (scenarioField radius opacity)).particles =
        [⟨400 + (1 / 2) * k, 300, radius, 1 / 2, 0, opacity⟩]) ∧
    (∀ k : ℕ, k < 800 → ∀ p ∈ (frames sqrt k (scenarioField radius opacity)).particles,
        ¬ (p.x + p.vx > 800)) ∧
    (∃ p, (frames sqrt 800 (scenarioField radius opacity)).particles = [p] ∧
        p.x + p.vx > 800) ∧
    (frames sqrt 801 (scenarioField radius opacity)).particles =
        [⟨0, 300, radius, 1 / 2, 0, opacity⟩] := by
  refine ⟨?_, fun k hk => scenario_frames sqrt radius opacity k hk, ?_, ?_, ?_⟩
  · rw [scenario_frames sqrt radius opacity 1 (by omega)]
    norm_num
  · intro k hk p hp
    rw [scenario_frames sqrt radius opacity k (le_of_lt hk)] at hp
    have h1 : (k : ℚ) ≤ 799 := by exact_mod_cast (by omega : k ≤ 799)
    simp only [List.mem_singleton] at hp
    subst hp
    simp only [gt_iff_lt, not_lt]
    linarith
  · refine ⟨_, scenario_frames sqrt radius opacity 800 le_rfl, ?_⟩
    norm_num
  · rw [frames_succ_particles, scenario_frames sqrt radius opacity 800 le_rfl]
    simp only [List.map_cons, List.map_nil, advance, scenarioField]
    norm_num

theorem C2_scenario_drift_then_snap_witness :
    (800 : ℕ) ≤ 800 ∧ (frames sqrtQ 800 (scenarioField 2 (1 / 2))).particles =
        [⟨400 + (1 / 2) * (800 : ℕ), 300, 2, 1 / 2, 0, 1 / 2⟩] :=
  ⟨le_rfl, (C2_scenario_drift_then_snap sqrtQ 2 (1 / 2)).2.1 800 le_rfl⟩

theorem mem_connect (sqrt : ℚ → ℚ) (ps : List Particle) (i : ℕ) (p : Particle) (c : PairCheck) :
    c ∈ connect sqrt ps i p ↔ ∃ j q, i < j ∧ ps[j]? = some q ∧ c = checkPair sqrt i j p q := by
  unfold connect
  simp only [List.mem_filterMap, List.mem_range'_1, Option.map_eq_some']
  constructor
  · rintro ⟨j, ⟨hj, _⟩, q, hq, rfl⟩
    exact ⟨j, q, by omega, hq, rfl⟩
  · rintro ⟨j, q, hij, hq, rfl⟩
    have hlt : j < ps.length := (List.getElem?_eq_some_iff.mp hq).1
    exact ⟨j, ⟨by omega, by omega⟩, q, hq, rfl⟩

theorem mem_animate_checks (sqrt : ℚ → ℚ) (f : Field) (c : PairCheck) :
    c ∈ (ParticleCanvas.animate sqrt f).2.checks ↔
      ∃ i j p q, i < j ∧ f.particles[i]? = some p ∧ f.particles[j]? = some q ∧
        c = checkPair sqrt i j (advance f.canvas p) q := by
  unfold Frame.checks
  rw [animate_draws]
  simp only [List.mem_flatMap, List.mem_filterMap, List.mem_range, drawAt, Option.map_eq_some']
  constructor
  · rintro ⟨d, ⟨i, _, p, hp, rfl⟩, hc⟩
    obtain ⟨j, q, hij, hq, rfl⟩ := (mem_connect sqrt _ _ _ _).mp hc
    exact ⟨i, j, p, q, hij, hp, hq, rfl⟩
  · rintro ⟨i, j, p, q, hij, hp, hq, rfl⟩
    have hlt : i < f.particles.length := (List.getElem?_eq_some_iff.mp hp).1
    exact ⟨_, ⟨i, hlt, p, hp, rfl⟩, (mem_connect sqrt _ _ _ _).mpr ⟨j, q, hij, hq, rfl⟩⟩

/-- C3: every pair compared in a frame, at computed distance `d`, gets a connecting line if
and only if `d < 120`; the line runs between the two positions compared, `d` is the square
root of the sum of their squared coordinate differences, and the stroke colour is the accent
colour with opacity exactly `0.2 * (1 - d / 120)`; at `d = 60` the opacity is `0.1`, and at
any `d ≥ 120` nothing is drawn. -/
theorem C3_line_iff_within_120 (sqrt : ℚ → ℚ) (f : Field) (c : PairCheck)
    (hc : c ∈ (ParticleCanvas.animate sqrt f).2.checks) :
    (c.line.isSome ↔ c.distance < 120) ∧
    (c.cmds ≠ [] ↔ c.distance < 120) ∧
    (∀ l, c.line = some l →
      l.alpha = 1 / 5 * (1 - c.distance / 120) ∧
      c.distance = sqrt ((l.x2 - l.x1) * (l.x2 - l.x1) + (l.y2 - l.y1) * (l.y2 - l.y1)) ∧
      c.cmds = [.beginPath, .strokeStyle ⟨100, 255, 218, 1 / 5 * (1 - c.distance / 120)⟩,
        .lineWidth 1, .moveTo l.x1 l.y1, .lineTo l.x2 l.y2, .stroke]) ∧
    (c.distance = 60 → ∃ l, c.line = some l ∧ l.alpha = 1 / 10) ∧
    (120 ≤ c.distance → c.line = none ∧ c.cmds = []) := by
  obtain ⟨i, j, p, q, _, _, _, rfl⟩ := (mem_animate_checks sqrt f c).mp hc
  by_cases h : sqrt ((q.x - (advance f.canvas p).x) * (q.x - (advance f.canvas p).x) +
      (q.y - (advance f.canvas p).y) * (q.y - (advance f.canvas p).y)) < 120
  · refine ⟨by simp [checkPair, h], by simp [checkPair, PairCheck.cmds, Line.cmds, h], ?_, ?_, ?_⟩
    · intro l hl
      simp only [checkPair, h, if_true, Option.some.injEq] at hl
      subst hl
      simp [checkPair, PairCheck.cmds, Line.cmds, accent, h]
    · intro h60
      simp only [checkPair] at h60
      simp only [checkPair, h, if_true]
      refine ⟨_, rfl, ?_⟩
      simp only [h60]
      norm_num
    · intro hge
      simp only [checkPair] at hge
      exact absurd h (not_lt.mpr hge)
  · refine ⟨by simp [checkPair, h], by simp [checkPair, PairCheck.cmds, h], ?_, ?_, ?_⟩
    · intro l hl
      simp [checkPair, h] at hl
    · intro h60
      simp only [checkPair] at h60
      rw [h60] at h
      norm_num at h
    · intro _
      simp [checkPair, PairCheck.cmds, h]

theorem sqrtQ_sq (n : ℕ) : sqrtQ ((n * n : ℕ) : ℚ) = n := by
  rw [sqrtQ, Rat.num_natCast, Rat.den_natCast, Int.toNat_ofNat, Nat.mul_one, Nat.sqrt_eq]
  simp

theorem C3_line_iff_within_120_witness :
    checkPair sqrtQ 0 1 (advance pairField.canvas ⟨100, 100, 2, 0, 0, 1 / 2⟩)
        ⟨160, 100, 2, 0, 0, 1 / 2⟩ ∈ (ParticleCanvas.animate sqrtQ pairField).2.checks ∧
    ∃ l, (checkPair sqrtQ 0 1 (advance pairField.canvas ⟨100, 100, 2, 0, 0, 1 / 2⟩)
        ⟨160, 100, 2, 0, 0, 1 / 2⟩).line = some l ∧ l.alpha = 1 / 10 := by
  have hmem : checkPair sqrtQ 0 1 (advance pairField.canvas ⟨100, 100, 2, 0, 0, 1 / 2⟩)
      ⟨160, 100, 2, 0, 0, 1 / 2⟩ ∈ (ParticleCanvas.animate sqrtQ pairField).2.checks :=
    (mem_animate_checks sqrtQ pairField _).mpr ⟨0, 1, _, _, by decide, rfl, rfl, rfl⟩
  refine ⟨hmem, (C3_line_iff_within_120 sqrtQ pairField _ hmem).2.2.2.1 ?_⟩
  have h : sqrtQ 3600 = 60 := by simpa using sqrtQ_sq 60
  simp only [checkPair, advance, pairField]
  norm_num
  exact h

theorem connect_indices (sqrt : ℚ → ℚ) (ps : List Particle) (i : ℕ) (p : Particle) :
    (connect sqrt ps i p).map (fun c => (c.i, c.j)) =
      (List.range' (i + 1) (ps.length - (i + 1))).map (Prod.mk i) := by
  unfold connect
  rw [List.map_filterMap, ← List.filterMap_eq_map]
  apply List.filterMap_congr
  intro j hj
  rw [List.mem_range'_1] at hj
  have hlt : j < ps.length := by omega
  simp [List.getElem?_eq_getElem hlt, checkPair]

theorem draws_indices (sqrt : ℚ → ℚ) (c : Canvas) (ps : List Particle) (is : List ℕ)
    (his : ∀ i ∈ is, i < ps.length) :
    (((is.filterMap (drawAt sqrt c ps)).flatMap (fun d => d.checks)).map (fun c => (c.i, c.j))) =
      is.flatMap (fun i => (List.range' (i + 1) (ps.length - (i + 1))).map (Prod.mk i)) := by
  induction is with
  | nil => rfl
  | cons i is ih =>
    have hi : i < ps.length := his i (List.mem_cons_self i is)
    have hd : drawAt sqrt c ps i = some ⟨i, advance c ps[i], connect sqrt ps i (advance c ps[i])⟩ := by
      simp [drawAt, List.getElem?_eq_getElem hi]
    rw [List.filterMap_cons, hd]
    simp only [List.flatMap_cons, List.map_append]
    rw [ih (fun k hk => his k (List.mem_cons_of_mem i hk)), connect_indices]

theorem animate_check_indices (sqrt : ℚ → ℚ) (f : Field) :
    (ParticleCanvas.animate sqrt f).2.checks.map (fun c => (c.i, c.j)) =
      indexPairs f.particles.length := by
  unfold Frame.checks indexPairs
  rw [animate_draws]
  exact draws_indices sqrt f.canvas f.particles _ (fun i hi => List.mem_range.mp hi)

theorem mem_indexPairs (n i j : ℕ) : (i, j) ∈ indexPairs n ↔ i < j ∧ j < n := by
  unfold indexPairs
  simp only [List.mem_flatMap, List.mem_range, List.mem_map, List.mem_range'_1, Prod.mk.injEq]
  constructor
  · rintro ⟨a, ha, b, ⟨hb1, hb2⟩, rfl, rfl⟩
    omega
  · rintro ⟨h1, h2⟩
    exact ⟨i, by omega, j, ⟨by omega, by omega⟩, rfl, rfl⟩

theorem nodup_indexPairs (n : ℕ) : (indexPairs n).Nodup := by
  unfold indexPairs
  rw [List.nodup_flatMap]
  refine ⟨fun i _ => ?_, ?_⟩
  · exact (List.nodup_range' _ _).map (fun a b h => (Prod.mk.injEq _ _ _ _ ▸ h).2)
  · refine (List.pairwise_lt_range n).imp ?_
    intro a b hab
    simp only [Function.onFun, List.disjoint_left, List.mem_map, not_exists, not_and]
    rintro x ⟨u, _, rfl⟩ v _ hv
    have := congrArg Prod.fst hv
    simp at this
    omega

theorem rowSum (n k : ℕ) (hk : k ≤ n) :
    2 * ((List.range k).map (fun i => n - (i + 1))).sum + k * (k + 1) = 2 * k * n := by
  induction k with
  | zero => simp
  | succ k ih =>
    have h := ih (by omega)
    rw [List.range_succ, List.map_append, List.sum_append]
    simp only [List.map_cons, List.map_nil, List.sum_cons, List.sum_nil, Nat.add_zero]
    obtain ⟨m, rfl⟩ : ∃ m, n = k + 1 + m := ⟨n - (k + 1), by omega⟩
    have e : k + 1 + m - (k + 1) = m := by omega
    rw [e]
    nlinarith [h]

theorem length_indexPairs (n : ℕ) : (indexPairs n).length = n * (n - 1) / 2 := by
  unfold indexPairs
  rw [List.length_flatMap]
  have h := rowSum n n le_rfl
  have e : (List.map (List.length ∘ fun i => List.map (Prod.mk i)
      (List.range' (i + 1) (n - (i + 1)))) (List.range n)) =
      (List.range n).map (fun i => n - (i + 1)) := by
    apply List.map_congr_left
    intro i _
    simp
  rw [e]
  cases n with
  | zero => simp
  | succ m =>
    simp only [Nat.add_sub_cancel] at *
    apply (Nat.div_eq_of_eq_mul_right (by norm_num) _).symm
    nlinarith [h]

/-- C4: in one frame over `n` particles the distance check runs for the index pair
`(i, j)` exactly when `i < j < n`, each such pair exactly once, never for a particle with
itself, `n (n - 1) / 2` checks in all, hence at most that many lines. -/
theorem C4_each_pair_checked_once (sqrt : ℚ → ℚ) (f : Field) :
    (∀ i j, (i, j) ∈ (ParticleCanvas.animate sqrt f).2.checks.map (fun c => (c.i, c.j)) ↔
      i < j ∧ j < f.particles.length) ∧
    ((ParticleCanvas.animate sqrt f).2.checks.map (fun c => (c.i, c.j))).Nodup ∧
    (∀ i j, i < j → j < f.particles.length →
      ((ParticleCanvas.animate sqrt f).2.checks.filter
        (fun c => (c.i = i ∧ c.j = j) ∨ (c.i = j ∧ c.j = i))).length = 1) ∧
    (∀ c ∈ (ParticleCanvas.animate sqrt f).2.checks, c.i ≠ c.j) ∧
    (ParticleCanvas.animate sqrt f).2.checks.length =
      f.particles.length * (f.particles.length - 1) / 2 ∧
    (ParticleCanvas.animate sqrt f).2.lines.length ≤
      f.particles.length * (f.particles.length - 1) / 2 := by
  have hidx := animate_check_indices sqrt f
  have hlen : (ParticleCanvas.animate sqrt f).2.checks.length =
      f.particles.length * (f.particles.length - 1) / 2 := by
    rw [← length_indexPairs, ← hidx, List.length_map]
  refine ⟨?_, ?_, ?_, ?_, hlen, ?_⟩
  · intro i j
    rw [hidx]
    exact mem_indexPairs _ i j
  · rw [hidx]
    exact nodup_indexPairs _
  · intro i j hij hj
    have hmem : (i, j) ∈ (ParticleCanvas.animate sqrt f).2.checks.map (fun c => (c.i, c.j)) := by
      rw [hidx]
      exact (mem_indexPairs _ i j).mpr ⟨hij, hj⟩
    have hnd : ((ParticleCanvas.animate sqrt f).2.checks.map (fun c => (c.i, c.j))).Nodup := by
      rw [hidx]
      exact nodup_indexPairs _
    have key : ∀ c ∈ (ParticleCanvas.animate sqrt f).2.checks,
        decide ((c.i = i ∧ c.j = j) ∨ (c.i = j ∧ c.j = i)) =
          ((fun x : ℕ × ℕ => decide (x = (i, j))) ∘ (fun c : PairCheck => (c.i, c.j))) c := by
      intro c hc
      have hm : (c.i, c.j) ∈ (ParticleCanvas.animate sqrt f).2.checks.map
          (fun c => (c.i, c.j)) := List.mem_map_of_mem _ hc
      rw [hidx, mem_indexPairs] at hm
      have hne : ¬ (c.i = j ∧ c.j = i) := by omega
      simp [hne, Prod.ext_iff]
    rw [List.filter_congr key, ← List.countP_eq_length_filter, ← List.countP_map]
    exact List.count_eq_one_of_mem hnd hmem
  · intro c hc h
    have hm : (c.i, c.j) ∈ (ParticleCanvas.animate sqrt f).2.checks.map (fun c => (c.i, c.j)) :=
      List.mem_map_of_mem _ hc
    rw [hidx, mem_indexPairs] at hm
    omega
  · rw [← hlen]
    exact List.length_filterMap_le _ _

theorem createParticles_fold (rnd : ℕ → ℚ) (f : Field) (n : ℕ) :
    (List.range n).foldl
      (fun g i => { g with particles := g.particles ++ [newParticle rnd (6 * i) g.canvas] }) f =
    { f with particles := f.particles ++ seeded rnd f.canvas n } := by
  induction n with
  | zero => simp [seeded]
  | succ n ih =>
    rw [List.range_succ, List.foldl_append, ih]
    simp [seeded, List.range_succ]

theorem createParticles_eq (rnd : ℕ → ℚ) (f : Field) :
    ParticleCanvas.createParticles rnd f =
      { f with particles := f.particles ++ seeded rnd f.canvas f.particleCount } :=
  createParticles_fold rnd f f.particleCount

theorem length_seeded (rnd : ℕ → ℚ) (c : Canvas) (n : ℕ) : (seeded rnd c n).length = n := by
  simp [seeded]

theorem animate_length (sqrt : ℚ → ℚ) (f : Field) :
    (ParticleCanvas.animate sqrt f).1.particles.length = f.particles.length := by
  rw [animate_particles, List.length_map]

theorem apply_length (sqrt : ℚ → ℚ) (f : Field) (op : Op) :
    (op.apply sqrt f).particles.length = f.particles.length := by
  cases op with
  | animate => exact animate_length sqrt f
  | resize => rfl
  | layout w h => rfl

theorem runOps_length (sqrt : ℚ → ℚ) (f : Field) (ops : List Op) :
    (runOps sqrt f ops).particles.length = f.particles.length := by
  induction ops generalizing f with
  | nil => rfl
  | cons op ops ih =>
    show (runOps sqrt (op.apply sqrt f) ops).particles.length = _
    rw [ih, apply_length]

/-- C5: construction on a present surface succeeds with a collection of exactly
`particleCount = 80` particles, and every later sequence of animate frames, resize calls and
layout changes, in any order, leaves the collection length at 80. -/
theorem C5_collection_size_stays_80 (sqrt : ℚ → ℚ) (rnd : ℕ → ℚ) (c : Canvas) :
    ∃ f eff, ParticleCanvas.constructor sqrt rnd (some c) = .ok (some f, eff) ∧
      f.particleCount = 80 ∧ f.particles.length = 80 ∧
      ∀ ops : List Op, (runOps sqrt f ops).particles.length = 80 := by
  refine ⟨_, _, rfl, rfl, ?_, ?_⟩
  · simp only [ParticleCanvas.init]
    rw [animate_length, createParticles_eq]
    simp [length_seeded, ParticleCanvas.resize]
  · intro ops
    rw [runOps_length]
    simp only [ParticleCanvas.init]
    rw [animate_length, createParticles_eq]
    simp [length_seeded, ParticleCanvas.resize]

theorem mem_seeded (rnd : ℕ → ℚ) (c : Canvas) (n : ℕ) (p : Particle) :
    p ∈ seeded rnd c n ↔ ∃ i, i < n ∧ p = newParticle rnd (6 * i) c := by
  simp only [seeded, List.mem_map, List.mem_range]
  constructor
  · rintro ⟨i, hi, rfl⟩
    exact ⟨i, hi, rfl⟩
  · rintro ⟨i, hi, rfl⟩
    exact ⟨i, hi, rfl⟩

/-- C6, as stated, fails: on a surface whose width is 0, with every sample equal to one
half, all 80 seeded particles have `x = 0`, which is not below the surface width. -/
theorem C6_seed_position_counterexample :
    (∀ k, 0 ≤ rndHalf k ∧ rndHalf k < 1) ∧ emptyCanvasField.canvas.width = 0 ∧
    (ParticleCanvas.createParticles rndHalf emptyCanvasField).particles.length = 80 ∧
    ∀ p ∈ (ParticleCanvas.createParticles rndHalf emptyCanvasField).particles,
      p.x = 0 ∧ ¬ (0 ≤ p.x ∧ p.x < emptyCanvasField.canvas.width) := by
  refine ⟨fun _ => by norm_num [rndHalf], rfl, ?_, ?_⟩
  · rw [createParticles_eq]
    simp [length_seeded, emptyCanvasField, ParticleCanvas.resize]
  · intro p hp
    rw [createParticles_eq] at hp
    simp only [emptyCanvasField, ParticleCanvas.resize, List.nil_append] at hp
    obtain ⟨i, _, rfl⟩ := (mem_seeded _ _ _ _).mp hp
    simp [newParticle, emptyCanvasField, ParticleCanvas.resize]

/-- C6, amended: on a surface with width `W ≥ 0` and height `H ≥ 0`, for every outcome of
the random source with samples in `[0, 1)`, `createParticles` appends `particleCount`
particles, each with `0 ≤ x ≤ W` and `0 ≤ y ≤ H`, with `x < W` whenever `W > 0` and `y < H`
whenever `H > 0`. -/
theorem C6_seed_position_within_surface (rnd : ℕ → ℚ) (f : Field)
    (hrnd : ∀ k, 0 ≤ rnd k ∧ rnd k < 1) (hW : 0 ≤ f.canvas.width) (hH : 0 ≤ f.canvas.height) :
    ∃ new, (ParticleCanvas.createParticles rnd f).particles = f.particles ++ new ∧
      new.length = f.particleCount ∧
      ∀ p ∈ new, (0 ≤ p.x ∧ p.x ≤ f.canvas.width ∧ (0 < f.canvas.width → p.x < f.canvas.width)) ∧
        (0 ≤ p.y ∧ p.y ≤ f.canvas.height ∧ (0 < f.canvas.height → p.y < f.canvas.height)) := by
  refine ⟨seeded rnd f.canvas f.particleCount, ?_, length_seeded _ _ _, ?_⟩
  · rw [createParticles_eq]
  · intro p hp
    obtain ⟨i, _, rfl⟩ := (mem_seeded _ _ _ _).mp hp
    obtain ⟨a0, a1⟩ := hrnd (6 * i)
    obtain ⟨b0, b1⟩ := hrnd (6 * i + 1)
    simp only [newParticle]
    refine ⟨⟨mul_nonneg a0 hW, ?_, fun h => ?_⟩, ⟨mul_nonneg b0 hH, ?_, fun h => ?_⟩⟩
    · exact mul_le_of_le_one_left hW (le_of_lt a1)
    · exact mul_lt_of_lt_one_left h a1
    · exact mul_le_of_le_one_left hH (le_of_lt b1)
    · exact mul_lt_of_lt_one_left h b1

theorem C6_seed_position_within_surface_witness :
    ∃ new, (ParticleCanvas.createParticles rndHalf freshField).particles =
        freshField.particles ++ new ∧ new.length = 80 ∧
      ∀ p ∈ new, (0 ≤ p.x ∧ p.x ≤ 800 ∧ ((0 : ℚ) < 800 → p.x < 800)) ∧
        (0 ≤ p.y ∧ p.y ≤ 600 ∧ ((0 : ℚ) < 600 → p.y < 600)) :=
  C6_seed_position_within_surface rndHalf freshField (fun _ => by norm_num [rndHalf])
    (by norm_num [freshField]) (by norm_num [freshField])

/-- C7: for every outcome of the random source with samples in `[0, 1)`, the `i`-th
particle produced by `createParticles` is built from the six consecutive samples
`6 i, …, 6 i + 5`, one per field, and has radius in `[1, 3]`, opacity in `[0.2, 0.7]`,
`|vx| ≤ 0.25` and `|vy| ≤ 0.25`. -/
theorem C7_seed_ranges (rnd : ℕ → ℚ) (f : Field) (hrnd : ∀ k, 0 ≤ rnd k ∧ rnd k < 1) :
    ∃ new, (ParticleCanvas.createParticles rnd f).particles = f.particles ++ new ∧
      new.length = f.particleCount ∧
      (∀ i, i < f.particleCount → new[i]? = some
        { x := rnd (6 * i) * f.canvas.width
          y := rnd (6 * i + 1) * f.canvas.height
          radius := rnd (6 * i + 2) * 2 + 1
          vx := (rnd (6 * i + 3) - 1 / 2) * (1 / 2)
          vy := (rnd (6 * i + 4) - 1 / 2) * (1 / 2)
          opacity := rnd (6 * i + 5) * (1 / 2) + 1 / 5 }) ∧
      ∀ p ∈ new, (1 ≤ p.radius ∧ p.radius ≤ 3) ∧ (1 / 5 ≤ p.opacity ∧ p.opacity ≤ 7 / 10) ∧
        |p.vx| ≤ 1 / 4 ∧ |p.vy| ≤ 1 / 4 := by
  refine ⟨seeded rnd f.canvas f.particleCount, ?_, length_seeded _ _ _, ?_, ?_⟩
  · rw [createParticles_eq]
  · intro i hi
    simp [seeded, List.getElem?_map, List.getElem?_range hi, newParticle]
  · intro p hp
    obtain ⟨i, _, rfl⟩ := (mem_seeded _ _ _ _).mp hp
    obtain ⟨a0, a1⟩ := hrnd (6 * i + 2)
    obtain ⟨b0, b1⟩ := hrnd (6 * i + 3)
    obtain ⟨c0, c1⟩ := hrnd (6 * i + 4)
    obtain ⟨d0, d1⟩ := hrnd (6 * i + 5)
    simp only [newParticle, abs_le]
    refine ⟨⟨?_, ?_⟩, ⟨?_, ?_⟩, ⟨?_, ?_⟩, ⟨?_, ?_⟩⟩ <;> linarith

theorem C7_seed_ranges_witness :
    ∃ new, (ParticleCanvas.createParticles rndHalf freshField).particles =
        freshField.particles ++ new ∧ new.length = 80 ∧
      ∀ p ∈ new, (1 ≤ p.radius ∧ p.radius ≤ 3) ∧ (1 / 5 ≤ p.opacity ∧ p.opacity ≤ 7 / 10) ∧
        |p.vx| ≤ 1 / 4 ∧ |p.vy| ≤ 1 / 4 := by
  obtain ⟨new, h1, h2, -, h3⟩ :=
    C7_seed_ranges rndHalf freshField (fun _ => by norm_num [rndHalf])
  exact ⟨new, h1, h2, h3⟩

/-- C8: `resize` is idempotent and does not reseed: a second call with the layout size
unchanged gives the same state as the first, the backing bitmap size equals the layout
size, the layout size itself is untouched, and the particle collection is left as it was. -/
theorem C8_resize_idempotent (f : Field) :
    ParticleCanvas.resize (ParticleCanvas.resize f) = ParticleCanvas.resize f ∧
    (ParticleCanvas.resize f).canvas.width = f.canvas.offsetWidth ∧
    (ParticleCanvas.resize f).canvas.height = f.canvas.offsetHeight ∧
    (ParticleCanvas.resize f).canvas.offsetWidth = f.canvas.offsetWidth ∧
    (ParticleCanvas.resize f).canvas.offsetHeight = f.canvas.offsetHeight ∧
    (ParticleCanvas.resize f).particles = f.particles ∧
    (ParticleCanvas.resize f).particleCount = f.particleCount :=
  ⟨rfl, rfl, rfl, rfl, rfl, rfl, rfl⟩

/-- C9: with the surface element absent the constructor returns normally, leaves the
object without a field state (no particles created) and causes no effect at all: no resize
listener, no drawing command, no frame request. -/
theorem C9_absent_surface_is_inert (sqrt : ℚ → ℚ) (rnd : ℕ → ℚ) :
    ∃ eff, ParticleCanvas.constructor sqrt rnd none = .ok (none, eff) ∧ eff = [] ∧
      Effect.addResizeListener ∉ eff ∧ Effect.requestAnimationFrame ∉ eff ∧
      ∀ c, Effect.draw c ∉ eff :=
  ⟨[], rfl, rfl, List.not_mem_nil _, List.not_mem_nil _, fun _ => List.not_mem_nil _⟩

/-- C10, evaluated on the code: on a page lacking only the `mobileToggle` element, `init`
constructs `TypingAnimation` and `ParticleCanvas`, the `Navigation` constructor throws, the
error is logged and the remaining eleven components are never constructed; in general all
14 components are constructed exactly when both `mobileToggle` and `backToTop` exist. -/
theorem C10_missing_toggle_aborts_init (sqrt : ℚ → ℚ) (rnd : ℕ → ℚ) :
    initializeApp.init sqrt rnd pageWithoutToggle =
      ([.TypingAnimation, .ParticleCanvas], some (nullDeref "mobileToggle")) ∧
    (∀ doc : Document, (initializeApp.init sqrt rnd doc).1.length = 14 ↔
      (doc.mobileToggle = true ∧ doc.backToTop = true)) := by
  constructor
  · simp [initializeApp.init, initializeApp.components, initializeApp.tryAll, pageWithoutToggle,
      TypingAnimation.constructor, ParticleCanvas.constructor, Navigation.constructor,
      Navigation.setupScrollEffect, Navigation.setupMobileMenu, Except.map, bind, Except.bind]
  · intro doc
    cases hm : doc.mobileToggle <;> cases hb : doc.backToTop <;>
      cases hc : doc.particleCanvas <;>
      simp [initializeApp.init, initializeApp.components, initializeApp.tryAll,
        TypingAnimation.constructor, ParticleCanvas.constructor, Navigation.constructor,
        Navigation.setupScrollEffect, Navigation.setupMobileMenu, Navigation.setupActiveLink,
        Navigation.setupSmoothScroll, ScrollProgress.constructor, StatsCounter.constructor,
        BackToTop.constructor, AnimationObserver.constructor, ContactForm.constructor,
        plainConstructor, Except.map, bind, Except.bind, hm, hb, hc]

theorem advance_fixed (c : Canvas) (p : Particle) : (advance c p).fixed = p.fixed := rfl

theorem frames_fixed (sqrt : ℚ → ℚ) (k : ℕ) (f : Field) :
    (frames sqrt k f).particles.map Particle.fixed = f.particles.map Particle.fixed := by
  induction k with
  | zero => rfl
  | succ k ih =>
    rw [frames_succ_particles, List.map_map, ← ih]
    apply List.map_congr_left
    intro p _
    exact advance_fixed _ p

/-- C11: `animate` changes only positions: after one frame, and hence after any number of
frames, the collection has the same length and every particle has the `vx`, `vy`, `radius`
and `opacity` it had before. -/
theorem C11_animate_keeps_velocity_radius_opacity (sqrt : ℚ → ℚ) (f : Field) :
    (ParticleCanvas.animate sqrt f).1.particles.length = f.particles.length ∧
    (∀ (i : ℕ) (p : Particle), f.particles[i]? = some p →
      ∃ q, (ParticleCanvas.animate sqrt f).1.particles[i]? = some q ∧
        q.vx = p.vx ∧ q.vy = p.vy ∧ q.radius = p.radius ∧ q.opacity = p.opacity) ∧
    (∀ k, (frames sqrt k f).particles.map (fun p => (p.vx, p.vy, p.radius, p.opacity)) =
      f.particles.map (fun p => (p.vx, p.vy, p.radius, p.opacity))) := by
  refine ⟨animate_length sqrt f, ?_, fun k => frames_fixed sqrt k f⟩
  intro i p hp
  refine ⟨advance f.canvas p, ?_, rfl, rfl, rfl, rfl⟩
  rw [animate_particles, List.getElem?_map, hp]
  rfl

theorem C11_animate_keeps_velocity_radius_opacity_witness :
    ∃ q, (ParticleCanvas.animate sqrtQ leftEdgeField).1.particles[0]? = some q ∧
      q.vx = leftEdgeParticle.vx ∧ q.vy = leftEdgeParticle.vy ∧
      q.radius = leftEdgeParticle.radius ∧ q.opacity = leftEdgeParticle.opacity :=
  (C11_animate_keeps_velocity_radius_opacity sqrtQ leftEdgeField).2.1 0 leftEdgeParticle rfl

theorem twoParticle_frames (sqrt : ℚ → ℚ) (r1 o1 r2 o2 : ℚ) (k : ℕ) :
    frames sqrt k (twoParticleField r1 o1 r2 o2) = twoParticleField r1 o1 r2 o2 := by
  induction k with
  | zero => rfl
  | succ k ih =>
    have hc := frames_canvas sqrt (k + 1) (twoParticleField r1 o1 r2 o2)
    have hp := frames_succ_particles sqrt k (twoParticleField r1 o1 r2 o2)
    have hn : (frames sqrt (k + 1) (twoParticleField r1 o1 r2 o2)).particleCount =
        (twoParticleField r1 o1 r2 o2).particleCount := by
      rw [frames, animate_particleCount, ih]
    rw [ih] at hp
    have hp2 : (frames sqrt (k + 1) (twoParticleField r1 o1 r2 o2)).particles =
        (twoParticleField r1 o1 r2 o2).particles := by
      rw [hp]
      norm_num [twoParticleField, advance]
    cases hf : frames sqrt (k + 1) (twoParticleField r1 o1 r2 o2) with
    | mk c ps n =>
      rw [hf] at hc hp2 hn
      simp only at hc hp2 hn
      rw [hc, hp2, hn]

/-- C12: with two resting particles at (0, 0) and (50, 0) on an 800 x 600 surface, and a
host square root with `sqrt 2500 = 50`, the frame drawn after any number of preceding frames
strokes exactly one connecting line, from (0, 0) to (50, 0), with opacity
`0.2 * (1 - 50 / 120) = 7 / 60`. -/
theorem C12_two_particles_one_line (sqrt : ℚ → ℚ) (hsqrt : sqrt 2500 = 50)
    (r1 o1 r2 o2 : ℚ) (k : ℕ) :
    (ParticleCanvas.animate sqrt (frames sqrt k (twoParticleField r1 o1 r2 o2))).2.lines =
        [{ alpha := 7 / 60, x1 := 0, y1 := 0, x2 := 50, y2 := 0 }] ∧
    (1 : ℚ) / 5 * (1 - 50 / 120) = 7 / 60 ∧
    (ParticleCanvas.animate sqrt (frames sqrt k (twoParticleField r1 o1 r2 o2))).2.cmds =
      [.clearRect 0 0 800 600,
       .beginPath, .arc 0 0 r1, .fillStyle ⟨100, 255, 218, o1⟩, .fill,
       .beginPath, .strokeStyle ⟨100, 255, 218, 7 / 60⟩, .lineWidth 1, .moveTo 0 0,
       .lineTo 50 0, .stroke,
       .beginPath, .arc 50 0 r2, .fillStyle ⟨100, 255, 218, o2⟩, .fill] := by
  rw [twoParticle_frames]
  have hd : (ParticleCanvas.animate sqrt (twoParticleField r1 o1 r2 o2)).2.draws =
      [⟨0, ⟨0, 0, r1, 0, 0, o1⟩, [⟨0, 1, 50, some ⟨7 / 60, 0, 0, 50, 0⟩⟩]⟩,
       ⟨1, ⟨50, 0, r2, 0, 0, o2⟩, []⟩] := by
    rw [animate_draws]
    simp [twoParticleField, drawAt, advance, connect, checkPair, List.range_succ, List.range']
    norm_num [hsqrt]
  refine ⟨?_, by norm_num, ?_⟩
  · simp [Frame.lines, Frame.checks, hd]
  · have hcl : (ParticleCanvas.animate sqrt (twoParticleField r1 o1 r2 o2)).2.clear =
        .clearRect 0 0 800 600 := rfl
    simp [Frame.cmds, hd, hcl, ParticleDraw.cmds, PairCheck.cmds, Line.cmds, accent]

theorem C12_two_particles_one_line_witness :
    sqrtQ 2500 = 50 ∧
    (ParticleCanvas.animate sqrtQ (frames sqrtQ 3 (twoParticleField 2 (1 / 2) 2 (1 / 2)))).2.lines =
        [{ alpha := 7 / 60, x1 := 0, y1 := 0, x2 := 50, y2 := 0 }] :=
  ⟨by simpa using sqrtQ_sq 50,
   (C12_two_particles_one_line sqrtQ (by simpa using sqrtQ_sq 50) 2 (1 / 2) 2 (1 / 2) 3).1⟩

theorem filterMap_range (α : Type) (g : ℕ → Option α) (n : ℕ)
    (hg : ∀ i, i < n → (g i).isSome = true) :
    ((List.range n).filterMap g).length = n ∧
    ∀ i, i < n → ((List.range n).filterMap g)[i]? = g i := by
  induction n with
  | zero => exact ⟨rfl, fun i hi => absurd hi (Nat.not_lt_zero i)⟩
  | succ n ih =>
    obtain ⟨h1, h2⟩ := ih (fun i hi => hg i (Nat.lt_succ_of_lt hi))
    obtain ⟨x, hx⟩ := Option.isSome_iff_exists.mp (hg n (Nat.lt_succ_self n))
    rw [List.range_succ, List.filterMap_append]
    simp only [List.filterMap_cons, List.filterMap_nil, hx]
    refine ⟨by simp [h1], ?_⟩
    intro i hi
    by_cases h : i < n
    · rw [List.getElem?_append_left (by rw [h1]; exact h)]
      exact h2 i h
    · have hin : i = n := by omega
      subst hin
      rw [List.getElem?_append_right (by rw [h1]), h1]
      simp [hx]

theorem drawAt_isSome (sqrt : ℚ → ℚ) (c : Canvas) (ps : List Particle) (i : ℕ)
    (hi : i < ps.length) : (drawAt sqrt c ps i).isSome = true := by
  simp [drawAt, List.getElem?_eq_getElem hi]

theorem animate_draws_length (sqrt : ℚ → ℚ) (f : Field) :
    (ParticleCanvas.animate sqrt f).2.draws.length = f.particles.length := by
  rw [animate_draws]
  exact (filterMap_range _ _ _ (fun i hi => drawAt_isSome sqrt f.canvas f.particles i hi)).1

theorem animate_draws_getElem? (sqrt : ℚ → ℚ) (f : Field) (i : ℕ) :
    (ParticleCanvas.animate sqrt f).2.draws[i]? = drawAt sqrt f.canvas f.particles i := by
  by_cases hi : i < f.particles.length
  · rw [animate_draws]
    exact (filterMap_range _ _ _
      (fun i hi => drawAt_isSome sqrt f.canvas f.particles i hi)).2 i hi
  · rw [List.getElem?_eq_none (by rw [animate_draws_length]; omega)]
    simp [drawAt, List.getElem?_eq_none (Nat.le_of_not_lt hi)]

theorem animate_draws_drawn (sqrt : ℚ → ℚ) (f : Field) :
    (ParticleCanvas.animate sqrt f).2.draws.map (fun d => d.drawn) =
      f.particles.map (advance f.canvas) := by
  apply List.ext_getElem?
  intro i
  rw [List.getElem?_map, List.getElem?_map, animate_draws_getElem?, drawAt]
  cases f.particles[i]? <;> rfl

theorem checks_no_circle (cs : List PairCheck) :
    (cs.flatMap PairCheck.cmds).filterMap circleOf = [] ∧
    (cs.flatMap PairCheck.cmds).filterMap fillColour = [] ∧
    (cs.flatMap PairCheck.cmds).filter isFill = [] ∧
    (cs.flatMap PairCheck.cmds).filter isClear = [] := by
  induction cs with
  | nil => simp
  | cons c cs ih =>
    obtain ⟨h1, h2, h3, h4⟩ := ih
    simp only [List.flatMap_cons, List.filterMap_append, List.filter_append, h1, h2, h3, h4,
      List.append_nil]
    cases hl : c.line <;>
      simp [PairCheck.cmds, hl, Line.cmds, circleOf, fillColour, isFill, isClear]

theorem draws_circles (ds : List ParticleDraw) :
    (ds.flatMap ParticleDraw.cmds).filterMap circleOf =
        ds.map (fun d => (d.drawn.x, d.drawn.y, d.drawn.radius)) ∧
    (ds.flatMap ParticleDraw.cmds).filterMap fillColour =
        ds.map (fun d => accent d.drawn.opacity) ∧
    ((ds.flatMap ParticleDraw.cmds).filter isFill).length = ds.length ∧
    (ds.flatMap ParticleDraw.cmds).filter isClear = [] := by
  induction ds with
  | nil => simp
  | cons d ds ih =>
    obtain ⟨h1, h2, h3, h4⟩ := ih
    obtain ⟨k1, k2, k3, k4⟩ := checks_no_circle d.checks
    simp only [List.flatMap_cons, List.filterMap_append, List.filter_append, h1, h2, h4,
      List.length_append, h3, ParticleDraw.cmds, k1, k2, k3, k4, List.map_cons]
    simp [circleOf, fillColour, isFill, isClear]
    omega

/-- C13: each `animate` call first clears the rectangle `(0, 0, width, height)`, the only
`clearRect` of the frame, and then, for each particle in index order, issues `beginPath`,
one `arc` centred at the position the particle has after this frame's advance-and-wrap with
the particle's own radius, a `fillStyle` of rgba(100, 255, 218, opacity) with the particle's
own opacity, and `fill`, followed by that particle's connecting lines; a field of `n`
particles yields exactly `n` circles and `n` fills. -/
theorem C13_clear_then_one_circle_each (sqrt : ℚ → ℚ) (f : Field) :
    (ParticleCanvas.animate sqrt f).2.cmds =
      .clearRect 0 0 f.canvas.width f.canvas.height ::
        (ParticleCanvas.animate sqrt f).2.draws.flatMap
          (fun d => [.beginPath, .arc d.drawn.x d.drawn.y d.drawn.radius,
            .fillStyle ⟨100, 255, 218, d.drawn.opacity⟩, .fill] ++
            d.checks.flatMap PairCheck.cmds) ∧
    (ParticleCanvas.animate sqrt f).2.draws.map (fun d => d.index) =
      List.range f.particles.length ∧
    (ParticleCanvas.animate sqrt f).2.draws.map (fun d => d.drawn) =
      f.particles.map (advance f.canvas) ∧
    (ParticleCanvas.animate sqrt f).2.draws.map (fun d => d.drawn) =
      (ParticleCanvas.animate sqrt f).1.particles ∧
    (ParticleCanvas.animate sqrt f).2.cmds.filterMap circleOf =
      f.particles.map (fun p => ((advance f.canvas p).x, (advance f.canvas p).y, p.radius)) ∧
    (ParticleCanvas.animate sqrt f).2.cmds.filterMap fillColour =
      f.particles.map (fun p => ⟨100, 255, 218, p.opacity⟩) ∧
    ((ParticleCanvas.animate sqrt f).2.cmds.filterMap circleOf).length = f.particles.length ∧
    ((ParticleCanvas.animate sqrt f).2.cmds.filter isFill).length = f.particles.length ∧
    (ParticleCanvas.animate sqrt f).2.cmds.filter isClear =
      [.clearRect 0 0 f.canvas.width f.canvas.height] := by
  have hcmds : (ParticleCanvas.animate sqrt f).2.cmds =
      .clearRect 0 0 f.canvas.width f.canvas.height ::
        (ParticleCanvas.animate sqrt f).2.draws.flatMap ParticleDraw.cmds := rfl
  obtain ⟨h1, h2, h3, h4⟩ := draws_circles (ParticleCanvas.animate sqrt f).2.draws
  have hdr := animate_draws_drawn sqrt f
  have hcirc : (ParticleCanvas.animate sqrt f).2.cmds.filterMap circleOf =
      f.particles.map (fun p => ((advance f.canvas p).x, (advance f.canvas p).y, p.radius)) := by
    rw [hcmds, List.filterMap_cons]
    simp only [circleOf]
    rw [h1]
    have := congrArg (List.map (fun q : Particle => (q.x, q.y, q.radius))) hdr
    simp only [List.map_map] at this
    exact this
  refine ⟨rfl, ?_, hdr, ?_, hcirc, ?_, ?_, ?_, ?_⟩
  · apply List.ext_getElem?
    intro i
    rw [List.getElem?_map, animate_draws_getElem?, drawAt]
    by_cases hi : i < f.particles.length
    · simp [List.getElem?_eq_getElem hi, List.getElem?_range hi]
    · simp [List.getElem?_eq_none (Nat.le_of_not_lt hi)]
      omega
  · rw [hdr, animate_particles]
  · rw [hcmds, List.filterMap_cons]
    simp only [fillColour]
    rw [h2]
    have := congrArg (List.map (fun q : Particle => accent q.opacity)) hdr
    simp only [List.map_map] at this
    exact this
  · rw [hcirc, List.length_map]
  · rw [hcmds, List.filter_cons]
    simp only [isFill]
    simp [h3, animate_draws_length]
  · rw [hcmds, List.filter_cons]
    simp [isClear, h4]

theorem chaseField_draws :
    (ParticleCanvas.animate sqrtQ chaseField).2.draws =
      [⟨0, ⟨100, 100, 2, 0, 0, 1 / 2⟩,
        [⟨0, 1, 60, some ⟨1 / 10, 100, 100, 160, 100⟩⟩]⟩,
       ⟨1, ⟨161, 100, 2, 1, 0, 1 / 2⟩, []⟩] := by
  have h : sqrtQ 3600 = 60 := by simpa using sqrtQ_sq 60
  rw [animate_draws]
  simp [chaseField, drawAt, advance, connect, checkPair, List.range_succ, List.range']
  norm_num [h]

/-- C14: within one frame, every check of an index pair `i < j` computes its distance, and
takes the endpoints of its line, from particle `i` as advanced and wrapped in this frame and
particle `j` as it was before this frame's update, while the circle of particle `j` is drawn
at its advanced position; so a line can end at a point other than the centre of the circle
drawn for `j` in the same frame, as for a resting particle at (100, 100) and one at
(160, 100) moving right by 1, where the line ends at (160, 100) and the circle is at
(161, 100). -/
theorem C14_line_uses_stale_partner_position :
    (∀ (sqrt : ℚ → ℚ) (f : Field) (c : PairCheck),
      c ∈ (ParticleCanvas.animate sqrt f).2.checks →
      ∃ p q, c.i < c.j ∧ f.particles[c.i]? = some p ∧ f.particles[c.j]? = some q ∧
        c.distance = sqrt ((q.x - (advance f.canvas p).x) * (q.x - (advance f.canvas p).x) +
          (q.y - (advance f.canvas p).y) * (q.y - (advance f.canvas p).y)) ∧
        (∀ l, c.line = some l →
          l.x1 = (advance f.canvas p).x ∧ l.y1 = (advance f.canvas p).y ∧
          l.x2 = q.x ∧ l.y2 = q.y) ∧
        (∃ di, (ParticleCanvas.animate sqrt f).2.draws[c.i]? = some di ∧
          di.drawn = advance f.canvas p) ∧
        (∃ dj, (ParticleCanvas.animate sqrt f).2.draws[c.j]? = some dj ∧
          dj.drawn = advance f.canvas q)) ∧
    ((ParticleCanvas.animate sqrtQ chaseField).2.lines = [⟨1 / 10, 100, 100, 160, 100⟩] ∧
      (ParticleCanvas.animate sqrtQ chaseField).2.cmds.filterMap circleOf =
        [(100, 100, 2), (161, 100, 2)] ∧
      ((160 : ℚ), (100 : ℚ)) ≠ (161, 100)) := by
  constructor
  · intro sqrt f c hc
    obtain ⟨i, j, p, q, hij, hp, hq, rfl⟩ := (mem_animate_checks sqrt f c).mp hc
    refine ⟨p, q, hij, hp, hq, rfl, ?_, ?_, ?_⟩
    · intro l hl
      simp only [checkPair] at hl
      split at hl
      · simp only [Option.some.injEq] at hl
        subst hl
        exact ⟨rfl, rfl, rfl, rfl⟩
      · exact absurd hl (by simp)
    · refine ⟨⟨i, advance f.canvas p, connect sqrt f.particles i (advance f.canvas p)⟩, ?_, rfl⟩
      rw [animate_draws_getElem?]
      simp only [checkPair, drawAt, hp, Option.map_some']
    · refine ⟨⟨j, advance f.canvas q, connect sqrt f.particles j (advance f.canvas q)⟩, ?_, rfl⟩
      rw [animate_draws_getElem?]
      simp only [checkPair, drawAt, hq, Option.map_some']
  · refine ⟨?_, ?_, ?_⟩
    · simp [Frame.lines, Frame.checks, chaseField_draws]
    · simp [Frame.cmds, chaseField_draws, ParticleDraw.cmds, PairCheck.cmds, Line.cmds,
        circleOf]
      rfl
    · intro h
      have := congrArg Prod.fst h
      norm_num at this

theorem C14_line_uses_stale_partner_position_witness :
    ∃ p q, (0 : ℕ) < 1 ∧ chaseField.particles[0]? = some p ∧
      chaseField.particles[1]? = some q ∧
      (∀ l, (checkPair sqrtQ 0 1 (advance chaseField.canvas ⟨100, 100, 2, 0, 0, 1 / 2⟩)
          ⟨160, 100, 2, 1, 0, 1 / 2⟩).line = some l →
        l.x1 = (advance chaseField.canvas p).x ∧ l.y1 = (advance chaseField.canvas p).y ∧
        l.x2 = q.x ∧ l.y2 = q.y) := by
  obtain ⟨p, q, h1, h2, h3, -, h5, -, -⟩ :=
    C14_line_uses_stale_partner_position.1 sqrtQ chaseField
      (checkPair sqrtQ 0 1 (advance chaseField.canvas ⟨100, 100, 2, 0, 0, 1 / 2⟩)
        ⟨160, 100, 2, 1, 0, 1 / 2⟩)
      ((mem_animate_checks sqrtQ chaseField _).mpr ⟨0, 1, _, _, by decide, rfl, rfl, rfl⟩)
  exact ⟨p, q, h1, h2, h3, h5⟩

theorem advance_in_bounds (c : Canvas) (p : Particle) (hW : 0 ≤ c.width) (hH : 0 ≤ c.height) :
    (0 ≤ (advance c p).x ∧ (advance c p).x ≤ c.width) ∧
    (0 ≤ (advance c p).y ∧ (advance c p).y ≤ c.height) := by
  rw [advance_x, advance_y]
  refine ⟨?_, ?_⟩
  · by_cases h1 : p.x + p.vx < 0
    · simp [h1, hW]
    · by_cases h2 : p.x + p.vx > c.width
      · simp [h1, h2, hW]
      · simp only [h1, h2, if_false]
        exact ⟨not_lt.mp h1, not_lt.mp h2⟩
  · by_cases h1 : p.y + p.vy < 0
    · simp [h1, hH]
    · by_cases h2 : p.y + p.vy > c.height
      · simp [h1, h2, hH]
      · simp only [h1, h2, if_false]
        exact ⟨not_lt.mp h1, not_lt.mp h2⟩

/-- C15: on a surface with `W ≥ 0` and `H ≥ 0`, whatever the prior positions and
velocities, after one `animate` update every particle has `0 ≤ x ≤ W` and `0 ≤ y ≤ H`, and
the same holds after any positive number of successive frames on that surface. -/
theorem C15_positions_within_closed_surface (sqrt : ℚ → ℚ) (f : Field)
    (hW : 0 ≤ f.canvas.width) (hH : 0 ≤ f.canvas.height) :
    (∀ p ∈ (ParticleCanvas.animate sqrt f).1.particles,
      (0 ≤ p.x ∧ p.x ≤ f.canvas.width) ∧ (0 ≤ p.y ∧ p.y ≤ f.canvas.height)) ∧
    (∀ k, ∀ p ∈ (frames sqrt (k + 1) f).particles,
      (0 ≤ p.x ∧ p.x ≤ f.canvas.width) ∧ (0 ≤ p.y ∧ p.y ≤ f.canvas.height)) := by
  constructor
  · intro p hp
    rw [animate_particles, List.mem_map] at hp
    obtain ⟨q, _, rfl⟩ := hp
    exact advance_in_bounds f.canvas q hW hH
  · intro k p hp
    rw [frames_succ_particles, List.mem_map] at hp
    obtain ⟨q, _, rfl⟩ := hp
    exact advance_in_bounds f.canvas q hW hH

theorem C15_positions_within_closed_surface_witness :
    (0 : ℚ) ≤ leftEdgeField.canvas.width ∧ (0 : ℚ) ≤ leftEdgeField.canvas.height ∧
    ((0 ≤ (advance leftEdgeField.canvas leftEdgeParticle).x ∧
        (advance leftEdgeField.canvas leftEdgeParticle).x ≤ leftEdgeField.canvas.width) ∧
      (0 ≤ (advance leftEdgeField.canvas leftEdgeParticle).y ∧
        (advance leftEdgeField.canvas leftEdgeParticle).y ≤ leftEdgeField.canvas.height)) :=
  ⟨by norm_num [leftEdgeField], by norm_num [leftEdgeField],
   (C15_positions_within_closed_surface sqrtQ leftEdgeField
      (by norm_num [leftEdgeField]) (by norm_num [leftEdgeField])).1
      (advance leftEdgeField.canvas leftEdgeParticle)
      (by rw [animate_particles]
          exact List.mem_map_of_mem _ (List.mem_singleton_self leftEdgeParticle))⟩

theorem keydown_index_le (s : EasterEgg) (key : String) (h : s.konamiIndex ≤ 9) :
    (s.keydown key).konamiIndex ≤ 9 := by
  unfold EasterEgg.keydown
  have hlen : konamiCode.length = 10 := rfl
  split
  · simp only [hlen]
    split
    · exact Nat.zero_le 9
    · show s.konamiIndex + 1 ≤ 9
      omega
  · exact Nat.zero_le 9

theorem press_index_le (s : EasterEgg) (keys : List String) (h : s.konamiIndex ≤ 9) :
    (s.press keys).konamiIndex ≤ 9 := by
  induction keys generalizing s with
  | nil => exact h
  | cons key keys ih => exact ih (s.keydown key) (keydown_index_le s key h)

/-- C17: from the freshly constructed state, `konamiIndex` stays in `0..9` after every key
press; pressing the ten code keys in order activates exactly once, at the tenth key, and
returns the index to 0; but the eleven-key sequence `ArrowUp` followed by the full code,
whose last ten keys are exactly the code, never calls `activate`, because the third
`ArrowUp` resets the index to 0 without being tested against the first code key. -/
theorem C17_konami_matcher_misses_overlap :
    (∀ keys : List String, (EasterEgg.initial.press keys).konamiIndex ≤ 9) ∧
    (∀ n, n < 10 → EasterEgg.initial.press (konamiCode.take n) = ⟨n, 0⟩) ∧
    EasterEgg.initial.press konamiCode = ⟨0, 1⟩ ∧
    (("ArrowUp" :: konamiCode).drop 1 = konamiCode ∧
      ("ArrowUp" :: konamiCode).length = 11 ∧
      (∀ n, n ≤ 11 →
        (EasterEgg.initial.press (("ArrowUp" :: konamiCode).take n)).activations = 0) ∧
      (EasterEgg.initial.press ("ArrowUp" :: konamiCode)).activations = 0) ∧
    (EasterEgg.keydown ⟨2, 0⟩ "ArrowUp" = ⟨0, 0⟩ ∧
      EasterEgg.initial.press ["ArrowUp", "ArrowUp", "ArrowUp"] = ⟨0, 0⟩) := by
  refine ⟨fun keys => press_index_le _ keys (Nat.zero_le 9), ?_, ?_, ⟨rfl, rfl, ?_, ?_⟩, ?_, ?_⟩
  · decide
  · decide
  · decide
  · decide
  · decide
  · decide

theorem C17_konami_matcher_misses_overlap_witness :
    (5 : ℕ) < 10 ∧ EasterEgg.initial.press (konamiCode.take 5) = ⟨5, 0⟩ :=
  ⟨by decide, C17_konami_matcher_misses_overlap.2.1 5 (by decide)⟩

theorem notSpaceAt_rmatch (t : List Sym) :
    notSpaceAt.rmatch t = true ↔ t = [Sym.dot] ∨ t = [Sym.other] := by
  unfold notSpaceAt
  rw [RegularExpression.add_rmatch_iff, RegularExpression.char_rmatch_iff,
    RegularExpression.char_rmatch_iff]

theorem star_notSpaceAt_rmatch (w : List Sym) :
    (RegularExpression.star notSpaceAt).rmatch w = true ↔
      ∀ s ∈ w, s = Sym.dot ∨ s = Sym.other := by
  rw [RegularExpression.star_rmatch_iff]
  constructor
  · rintro ⟨S, rfl, hS⟩ s hs
    obtain ⟨t, ht, hst⟩ := List.mem_flatten.mp hs
    rcases (notSpaceAt_rmatch t).mp (hS t ht).2 with h | h
    · rw [h] at hst
      exact Or.inl (List.mem_singleton.mp hst)
    · rw [h] at hst
      exact Or.inr (List.mem_singleton.mp hst)
  · intro h
    refine ⟨w.map (fun s => [s]), ?_, ?_⟩
    · clear h
      induction w with
      | nil => rfl
      | cons s w ih => simp [← ih]
    · intro t ht
      obtain ⟨s, hs, rfl⟩ := List.mem_map.mp ht
      refine ⟨by simp, (notSpaceAt_rmatch [s]).mpr ?_⟩
      rcases h s hs with h | h
      · exact Or.inl (by rw [h])
      · exact Or.inr (by rw [h])

theorem oneOrMore_notSpaceAt_rmatch (w : List Sym) :
    (oneOrMore notSpaceAt).rmatch w = true ↔
      w ≠ [] ∧ ∀ s ∈ w, s = Sym.dot ∨ s = Sym.other := by
  unfold oneOrMore
  rw [RegularExpression.mul_rmatch_iff]
  constructor
  · rintro ⟨t, u, rfl, ht, hu⟩
    have hu2 := (star_notSpaceAt_rmatch u).mp hu
    rcases (notSpaceAt_rmatch t).mp ht with h | h
    · subst h
      refine ⟨by simp, ?_⟩
      intro s hs
      rcases List.mem_append.mp hs with h1 | h1
      · exact Or.inl (List.mem_singleton.mp h1)
      · exact hu2 s h1
    · subst h
      refine ⟨by simp, ?_⟩
      intro s hs
      rcases List.mem_append.mp hs with h1 | h1
      · exact Or.inr (List.mem_singleton.mp h1)
      · exact hu2 s h1
  · rintro ⟨hne, h⟩
    cases w with
    | nil => exact absurd rfl hne
    | cons s w =>
      refine ⟨[s], w, rfl, (notSpaceAt_rmatch [s]).mpr ?_, (star_notSpaceAt_rmatch w).mpr ?_⟩
      · rcases h s (List.mem_cons_self s w) with h1 | h1
        · exact Or.inl (by rw [h1])
        · exact Or.inr (by rw [h1])
      · intro x hx
        exact h x (List.mem_cons_of_mem s hx)

theorem emailRegex_rmatch (w : List Sym) :
    emailRegex.rmatch w = true ↔
      ∃ a b c, (a ≠ [] ∧ ∀ s ∈ a, s = Sym.dot ∨ s = Sym.other) ∧
        (b ≠ [] ∧ ∀ s ∈ b, s = Sym.dot ∨ s = Sym.other) ∧
        (c ≠ [] ∧ ∀ s ∈ c, s = Sym.dot ∨ s = Sym.other) ∧
        w = a ++ Sym.atSign :: (b ++ Sym.dot :: c) := by
  unfold emailRegex
  simp only [RegularExpression.mul_rmatch_iff, RegularExpression.char_rmatch_iff,
    oneOrMore_notSpaceAt_rmatch]
  constructor
  · rintro ⟨t1, c, rfl, ⟨t2, d, rfl, ⟨t3, b, rfl, ⟨a, e, rfl, ha, rfl⟩, hb⟩, rfl⟩, hc⟩
    exact ⟨a, b, c, ha, hb, hc, by simp⟩
  · rintro ⟨a, b, c, ha, hb, hc, rfl⟩
    exact ⟨a ++ [Sym.atSign] ++ b ++ [Sym.dot], c, by simp,
      ⟨a ++ [Sym.atSign] ++ b, [Sym.dot], rfl,
        ⟨a ++ [Sym.atSign], b, rfl, ⟨a, [Sym.atSign], rfl, ha, rfl⟩, hb⟩, rfl⟩, hc⟩

theorem classify_eq_atSign (c : Char) : classify c = Sym.atSign ↔ c = '@' := by
  unfold classify
  by_cases h1 : c = '@'
  · simp [h1]
  · by_cases h2 : c = '.'
    · simp [h2]
    · cases h3 : isJsSpace c <;> simp [h1, h2, h3]

theorem classify_eq_dot (c : Char) : classify c = Sym.dot ↔ c = '.' := by
  unfold classify
  by_cases h1 : c = '@'
  · subst h1
    simp
  · by_cases h2 : c = '.'
    · simp [h2]
    · cases h3 : isJsSpace c <;> simp [h1, h2, h3]

theorem classify_plain (c : Char) :
    (classify c = Sym.dot ∨ classify c = Sym.other) ↔ (c ≠ '@' ∧ isJsSpace c = false) := by
  unfold classify
  by_cases h1 : c = '@'
  · simp [h1]
  · by_cases h2 : c = '.'
    · subst h2
      simp
      decide
    · cases h3 : isJsSpace c <;> simp [h1, h2, h3]

theorem map_classify_plain (A : List Char) :
    (∀ s ∈ A.map classify, s = Sym.dot ∨ s = Sym.other) ↔
      ∀ c ∈ A, c ≠ '@' ∧ isJsSpace c = false := by
  constructor
  · intro h c hc
    exact (classify_plain c).mp (h _ (List.mem_map_of_mem classify hc))
  · intro h s hs
    obtain ⟨c, hc, rfl⟩ := List.mem_map.mp hs
    exact (classify_plain c).mpr (h c hc)

theorem emailRegexTest_iff (v : List Char) :
    emailRegexTest v = true ↔
      ∃ A B C, A ≠ [] ∧ B ≠ [] ∧ C ≠ [] ∧
        (∀ c ∈ A, c ≠ '@' ∧ isJsSpace c = false) ∧
        (∀ c ∈ B, c ≠ '@' ∧ isJsSpace c = false) ∧
        (∀ c ∈ C, c ≠ '@' ∧ isJsSpace c = false) ∧
        v = A ++ '@' :: (B ++ '.' :: C) := by
  unfold emailRegexTest
  rw [emailRegex_rmatch]
  constructor
  · rintro ⟨a, b, c, ⟨ha0, ha⟩, ⟨hb0, hb⟩, ⟨hc0, hc⟩, hv⟩
    obtain ⟨A, T, rfl, rfl, hT⟩ := List.map_eq_append_iff.mp hv
    obtain ⟨x, T1, rfl, hx, hT1⟩ := List.map_eq_cons_iff.mp hT
    obtain ⟨B, U, rfl, rfl, hU⟩ := List.map_eq_append_iff.mp hT1
    obtain ⟨y, C, rfl, hy, rfl⟩ := List.map_eq_cons_iff.mp hU
    rw [(classify_eq_atSign x).mp hx, (classify_eq_dot y).mp hy]
    refine ⟨A, B, C, ?_, ?_, ?_, (map_classify_plain A).mp ha, (map_classify_plain B).mp hb,
      (map_classify_plain C).mp hc, rfl⟩
    · intro h
      exact ha0 (by rw [h]; rfl)
    · intro h
      exact hb0 (by rw [h]; rfl)
    · intro h
      exact hc0 (by rw [h]; rfl)
  · rintro ⟨A, B, C, hA0, hB0, hC0, hA, hB, hC, rfl⟩
    refine ⟨A.map classify, B.map classify, C.map classify,
      ⟨by simpa using hA0, (map_classify_plain A).mpr hA⟩,
      ⟨by simpa using hB0, (map_classify_plain B).mpr hB⟩,
      ⟨by simpa using hC0, (map_classify_plain C).mpr hC⟩, ?_⟩
    simp [classify]

theorem emailRegexTest_iff_shape (v : List Char) :
    emailRegexTest v = true ↔
      ((∀ c ∈ v, isJsSpace c = false) ∧ v.count '@' = 1 ∧
        ∃ A R, v = A ++ '@' :: R ∧ A ≠ [] ∧ ∃ B C, R = B ++ '.' :: C ∧ B ≠ [] ∧ C ≠ []) := by
  rw [emailRegexTest_iff]
  have hat : isJsSpace '@' = false := by decide
  have hdot : isJsSpace '.' = false := by decide
  constructor
  · rintro ⟨A, B, C, hA0, hB0, hC0, hA, hB, hC, rfl⟩
    have cA : A.count '@' = 0 := List.count_eq_zero.mpr (fun h => (hA _ h).1 rfl)
    have cB : B.count '@' = 0 := List.count_eq_zero.mpr (fun h => (hB _ h).1 rfl)
    have cC : C.count '@' = 0 := List.count_eq_zero.mpr (fun h => (hC _ h).1 rfl)
    refine ⟨?_, ?_, A, B ++ '.' :: C, rfl, hA0, B, C, rfl, hB0, hC0⟩
    · intro c hc
      simp only [List.mem_append, List.mem_cons] at hc
      rcases hc with h | h | h | h | h
      · exact (hA c h).2
      · rw [h]; exact hat
      · exact (hB c h).2
      · rw [h]; exact hdot
      · exact (hC c h).2
    · simp [List.count_append, List.count_cons, cA, cB, cC]
  · rintro ⟨hsp, hcount, A, R, rfl, hA0, B, C, rfl, hB0, hC0⟩
    simp only [List.count_append, List.count_cons, beq_self_eq_true, if_true] at hcount
    have cA : A.count '@' = 0 := by omega
    have cB : B.count '@' = 0 := by omega
    have cC : C.count '@' = 0 := by omega
    refine ⟨A, B, C, hA0, hB0, hC0, ?_, ?_, ?_, rfl⟩
    · intro c hc
      exact ⟨fun h => List.count_eq_zero.mp cA (h ▸ hc), hsp c (by simp [hc])⟩
    · intro c hc
      exact ⟨fun h => List.count_eq_zero.mp cB (h ▸ hc), hsp c (by simp [hc])⟩
    · intro c hc
      exact ⟨fun h => List.count_eq_zero.mp cC (h ▸ hc), hsp c (by simp [hc])⟩

theorem validateField_spec (field : FormField) (P : Prop)
    (hP : emailRegexTest (trim field.value) = true ↔ P) :
    ((ContactForm.validateField field).1 = true ↔
      (trim field.value ≠ [] ∧ (field.type = "email" → P))) ∧
    ((ContactForm.validateField field).2.invalid = true ↔
      (ContactForm.validateField field).1 = false) ∧
    (trim field.value = [] →
      (ContactForm.validateField field).1 = false ∧
      (ContactForm.validateField field).2.fieldError = some "This field is required") ∧
    (trim field.value ≠ [] → (ContactForm.validateField field).1 = false →
      field.type = "email" ∧
      (ContactForm.validateField field).2.fieldError =
        some "Please enter a valid email address") ∧
    ((ContactForm.validateField field).1 = true →
      (ContactForm.validateField field).2.fieldError = none) ∧
    (ContactForm.validateField field).2.value = field.value ∧
    (ContactForm.validateField field).2.type = field.type := by
  unfold ContactForm.validateField
  cases hv : trim field.value with
  | nil => simp
  | cons a l =>
    rw [hv] at hP
    by_cases ht : field.type = "email"
    · cases he : emailRegexTest (a :: l) with
      | true =>
        have hp : P := hP.mp he
        simp [ht, he, hp]
      | false =>
        have hn : ¬ P := fun h => by
          have := hP.mpr h
          rw [he] at this
          exact Bool.false_ne_true this
        simp [ht, he, hn]
    · simp [ht]

/-- C16: `validateField` returns true if and only if the trimmed value is non-empty and,
when the field type is `email`, the trimmed value contains no white space, exactly one `@`
with at least one character before it, and after the `@` a `.` with at least one character
between the `@` and it and at least one character after it; the field carries the
`invalid` class after the call exactly when the result is false, the error text is
`This field is required` for an empty trimmed value and `Please enter a valid email address`
for a non-empty value that is rejected, which happens only for type `email`, and a valid
field has no error element. -/
theorem C16_validateField_characterised (field : FormField) :
    ((ContactForm.validateField field).1 = true ↔
      (trim field.value ≠ [] ∧
        (field.type = "email" →
          (∀ c ∈ trim field.value, isJsSpace c = false) ∧ (trim field.value).count '@' = 1 ∧
          ∃ A R, trim field.value = A ++ '@' :: R ∧ A ≠ [] ∧
            ∃ B C, R = B ++ '.' :: C ∧ B ≠ [] ∧ C ≠ []))) ∧
    ((ContactForm.validateField field).2.invalid = true ↔
      (ContactForm.validateField field).1 = false) ∧
    (trim field.value = [] →
      (ContactForm.validateField field).1 = false ∧
      (ContactForm.validateField field).2.fieldError = some "This field is required") ∧
    (trim field.value ≠ [] → (ContactForm.validateField field).1 = false →
      field.type = "email" ∧
      (ContactForm.validateField field).2.fieldError =
        some "Please enter a valid email address") ∧
    ((ContactForm.validateField field).1 = true →
      (ContactForm.validateField field).2.fieldError = none) ∧
    (ContactForm.validateField field).2.value = field.value ∧
    (ContactForm.validateField field).2.type = field.type :=
  validateField_spec field _ (emailRegexTest_iff_shape (trim field.value))

theorem C16_validateField_characterised_witness :
    (ContactForm.validateField emailField).1 = true ∧
    (ContactForm.validateField emailField).2.invalid = false ∧
    (ContactForm.validateField emailField).2.fieldError = none ∧
    (trim emailField.value).count '@' = 1 := by
  have h := (C16_validateField_characterised emailField).1.mp (by decide)
  exact ⟨by decide, by decide,
    (C16_validateField_characterised emailField).2.2.2.2.1 (by decide), (h.2 rfl).2.1⟩

end Portfolio
